import Mathlib

/-!
Verification of the range-slider merge algorithm of the onyxia form layer.

The data model (`FormFieldGroupLike` trees of `group`/`field` nodes, with
`temporary range slider` and merged `range slider` field variants) and the
merge transformation are embedded as executable Lean definitions.  The
repository ships the unit tests of `mergeRangeSliders` (its fixtures are
translated verbatim below); the implementation module itself
(`mergeRangeSliders.ts` / `temporaryRangeSlider.ts`) is not part of the
corpus, so the algorithm is modelled from the specification, with the test
fixtures taken as authoritative for the pairing scope and for group pruning.
-/

/-- Which end of a logical range a temporary slider node represents:
`down` is the low/request end, `up` the high/limit end. -/
inductive SliderExtremity where
  | down
  | up
deriving DecidableEq, Repr

/-- The opposite extremity tag. -/
def oppExt : SliderExtremity → SliderExtremity
  | .down => .up
  | .up => .down

/-- Payload of a `temporary range slider` leaf, as in the spec data model and
the test fixtures (`createTemporaryRangeSlider({payload})`).  Numeric slider
data is modelled with natural numbers, which covers every value appearing in
the repository. -/
structure TemporaryRangeSliderPayload where
  isReadonly : Bool
  sliderMin : Nat
  sliderMax : Nat
  sliderStep : Nat
  sliderUnit : String
  sliderExtremitySemantic : String
  sliderRangeId : String
  helmValue : String
  helmValuesPath : List String
  description : String
  sliderExtremity : SliderExtremity
  title : Option String := none
deriving DecidableEq, Repr

/-- One endpoint of a merged `range slider` field
(`lowEndRange` / `highEndRange` in the expected test trees). -/
structure RangeEnd where
  isReadonly : Bool
  helmValuesPath : List String
  value : Nat
  rangeEndSemantic : String
  min : Nat
  max : Nat
  description : String
deriving DecidableEq, Repr

/-- A merged `range slider` field (`FormField.RangeSlider` in the tests). -/
structure RangeSlider where
  title : String
  unit : String
  step : Nat
  lowEndRange : RangeEnd
  highEndRange : RangeEnd
deriving DecidableEq, Repr

/-- A `field` leaf of the form tree.  Besides the two field types that matter
to the merge, `other` stands for any further field type (e.g. text fields),
which the merge passes through untouched. -/
inductive FormField where
  | temporaryRangeSlider (payload : TemporaryRangeSliderPayload)
  | rangeSlider (slider : RangeSlider)
  | other (fieldType : String) (title : Option String)
deriving DecidableEq, Repr

/-- A node of the `FormFieldGroupLike` tree: either a `field` leaf or a
`group` with a `helmValuesPathSegment` and an ordered children list. -/
inductive FormFieldNode where
  | field (f : FormField)
  | group (helmValuesPathSegment : String) (children : List FormFieldNode)
deriving Repr

/-- Modelled from the spec: `createTemporaryRangeSlider` (its module is not in
the corpus) wraps a payload into a `temporary range slider` field leaf, as the
test fixtures use it inside children lists. -/
def createTemporaryRangeSlider (payload : TemporaryRangeSliderPayload) : FormFieldNode :=
  FormFieldNode.field (FormField.temporaryRangeSlider payload)

/-- Errors the merge raises to its caller (spec §7): a matched pair none of
whose endpoints carries a title, or a `helmValue` that does not end with the
declared `sliderUnit` / has an unparsable numeric prefix. -/
inductive MergeError where
  | missingTitle (sliderRangeId : String)
  | malformedValue (helmValue : String) (sliderUnit : String)
deriving DecidableEq, Repr

/-- Modelled from the spec: parse a non-empty all-digit character sequence as
a natural number; any other sequence is not a valid number. -/
def parseNatDigits (cs : List Char) : Option Nat :=
  if cs ≠ [] ∧ cs.all Char.isDigit then
    some (cs.foldl (fun n c => n * 10 + (c.toNat - 48)) 0)
  else none

/-- Modelled from the spec: `parseNumericPrefix` (its module is not in the
corpus): given a raw string and the declared `sliderUnit`, verify the string
ends with the unit, take the substring before the suffix and parse it as a
number; fail otherwise. -/
def parseNumericValue (s : String) (sliderUnit : String) : Option Nat :=
  if sliderUnit.data.isSuffixOf s.data then
    parseNatDigits (s.data.take (s.data.length - sliderUnit.data.length))
  else none

/-- Modelled from the spec: build the merged `range slider` field of a matched
pair.  The title comes from whichever endpoint carries one (the `down`
endpoint by convention), `unit`/`step` from the `down` endpoint, and each of
`lowEndRange`/`highEndRange` from its own endpoint; a missing title or a
malformed `helmValue` raises. -/
def buildMergedRangeSlider (dp : TemporaryRangeSliderPayload)
    (upp : TemporaryRangeSliderPayload) : Except MergeError RangeSlider :=
  match dp.title.orElse (fun _ => upp.title) with
  | none => .error (.missingTitle dp.sliderRangeId)
  | some t =>
    match parseNumericValue dp.helmValue dp.sliderUnit with
    | none => .error (.malformedValue dp.helmValue dp.sliderUnit)
    | some lowValue =>
      match parseNumericValue upp.helmValue upp.sliderUnit with
      | none => .error (.malformedValue upp.helmValue upp.sliderUnit)
      | some highValue =>
        .ok {
          title := t
          unit := dp.sliderUnit
          step := dp.sliderStep
          lowEndRange := {
            isReadonly := dp.isReadonly
            helmValuesPath := dp.helmValuesPath
            value := lowValue
            rangeEndSemantic := dp.sliderExtremitySemantic
            min := dp.sliderMin
            max := dp.sliderMax
            description := dp.description }
          highEndRange := {
            isReadonly := upp.isReadonly
            helmValuesPath := upp.helmValuesPath
            value := highValue
            rangeEndSemantic := upp.sliderExtremitySemantic
            min := upp.sliderMin
            max := upp.sliderMax
            description := upp.description } }

/-- Position of a temporary slider in the pairing scope of a group: the index
of the direct child holding it, and, when it sits inside a direct subgroup,
its index among that subgroup's children. -/
abbrev ScopePos := Nat × Option Nat

/-- A scope entry: a position together with the slider payload found there. -/
abbrev ScopeEntry := ScopePos × TemporaryRangeSliderPayload

/-- Scope entry contributed by the child at sub-index `j` of the direct
subgroup at child index `i`. -/
def subEntryOfChild (i j : Nat) : FormFieldNode → List ScopeEntry
  | FormFieldNode.field (FormField.temporaryRangeSlider p) => [((i, some j), p)]
  | FormFieldNode.field (FormField.rangeSlider _) => []
  | FormFieldNode.field (FormField.other _ _) => []
  | FormFieldNode.group _ _ => []

/-- Temporary sliders among the children of the direct subgroup at child
index `i`, starting at subgroup-child index `j`. -/
def subSliders (i : Nat) : Nat → List FormFieldNode → List ScopeEntry
  | _, [] => []
  | j, d :: rest => subEntryOfChild i j d ++ subSliders i (j + 1) rest

/-- Scope entries contributed by the direct child at index `i`. -/
def scopeEntriesOfChild (i : Nat) : FormFieldNode → List ScopeEntry
  | FormFieldNode.field (FormField.temporaryRangeSlider p) => [((i, none), p)]
  | FormFieldNode.field (FormField.rangeSlider _) => []
  | FormFieldNode.field (FormField.other _ _) => []
  | FormFieldNode.group _ gcs => subSliders i 0 gcs

/-- The pairing scope of a children list, starting at child index `i`:
temporary sliders that are direct children, plus those that are direct
children of a direct subgroup. -/
def scopeSlidersAux : Nat → List FormFieldNode → List ScopeEntry
  | _, [] => []
  | i, c :: rest => scopeEntriesOfChild i c ++ scopeSlidersAux (i + 1) rest

/-- The pairing scope of a group's children list. -/
def scopeSliders (cs : List FormFieldNode) : List ScopeEntry :=
  scopeSlidersAux 0 cs

/-- Range ids in order of first occurrence. -/
def firstOccurIds (l : List String) : List String :=
  l.foldl (fun acc x => if x ∈ acc then acc else acc ++ [x]) []

/-- First scope entry of the given extremity and range id. -/
def scopeFind (S : List ScopeEntry) (ext : SliderExtremity) (rid : String) :
    Option ScopeEntry :=
  S.find? (fun e => decide (e.2.sliderRangeId = rid ∧ e.2.sliderExtremity = ext))

/-- Matched pairs of a scope: for each range id having both a `down` and an
`up` entry, the first `down` entry together with the first `up` entry. -/
def pairsForScope (S : List ScopeEntry) : List (ScopeEntry × ScopeEntry) :=
  (firstOccurIds (S.map (fun e => e.2.sliderRangeId))).filterMap (fun rid =>
    match scopeFind S .down rid, scopeFind S .up rid with
    | some d, some u => some (d, u)
    | some _, none => none
    | none, some _ => none
    | none, none => none)

/-- Sub-index used to order scope positions within one child slot. -/
def posSub : Option Nat → Nat
  | none => 0
  | some j => j

/-- The earlier of two scope positions (the merged field is inserted at the
position formerly occupied by the first-encountered endpoint of the pair). -/
def anchorPos (p q : ScopePos) : ScopePos :=
  if p.1 < q.1 then p
  else if q.1 < p.1 then q
  else if posSub p.2 ≤ posSub q.2 then p else q

/-- Positions consumed by a list of matched pairs. -/
def consumedOf (pairs : List (ScopeEntry × ScopeEntry)) : List ScopePos :=
  pairs.foldr (fun du acc => du.1.1 :: du.2.1 :: acc) []

/-- Build the merged fields of all matched pairs, each tagged with the anchor
position where it is inserted; the first malformed pair raises. -/
def buildAllPairs : List (ScopeEntry × ScopeEntry) →
    Except MergeError (List (ScopePos × RangeSlider))
  | [] => .ok []
  | du :: rest =>
    match buildMergedRangeSlider du.1.2 du.2.2 with
    | .error e => .error e
    | .ok f =>
      match buildAllPairs rest with
      | .error e => .error e
      | .ok fs => .ok ((anchorPos du.1.1 du.2.1, f) :: fs)

/-- Remove the consumed sliders among the children of the direct subgroup at
child index `i` (counting from subgroup-child index `j`). -/
def removeConsumedSub (i : Nat) (consumed : List ScopePos) :
    Nat → List FormFieldNode → List FormFieldNode
  | _, [] => []
  | j, d :: rest =>
    (if (i, some j) ∈ consumed then [] else [d]) ++ removeConsumedSub i consumed (j + 1) rest

/-- Rewrite one direct child at index `i`: a consumed slider is replaced by
the merged fields anchored at its position (the later endpoint of a pair thus
vanishes), a subgroup first emits the merged fields anchored inside it, then
itself with its consumed sliders removed — unless that emptied it, in which
case the group is pruned; everything else passes through unchanged. -/
def rebuildChild (consumed : List ScopePos) (merged : List (ScopePos × RangeSlider))
    (i : Nat) : FormFieldNode → List FormFieldNode
  | FormFieldNode.field (FormField.temporaryRangeSlider p) =>
    if (i, (none : Option Nat)) ∈ consumed then
      (merged.filter (fun m => decide (m.1 = (i, none)))).map
        (fun m => FormFieldNode.field (FormField.rangeSlider m.2))
    else [FormFieldNode.field (FormField.temporaryRangeSlider p)]
  | FormFieldNode.field (FormField.rangeSlider r) =>
      [FormFieldNode.field (FormField.rangeSlider r)]
  | FormFieldNode.field (FormField.other ft ti) => [FormFieldNode.field (FormField.other ft ti)]
  | FormFieldNode.group seg gcs =>
    ((merged.filter (fun m => decide (m.1.1 = i ∧ m.1.2 ≠ none))).map
        (fun m => FormFieldNode.field (FormField.rangeSlider m.2))) ++
      (if !gcs.isEmpty && (removeConsumedSub i consumed 0 gcs).isEmpty then []
       else [FormFieldNode.group seg (removeConsumedSub i consumed 0 gcs)])

/-- Rewrite the children list, child index starting at `i`. -/
def rebuildAux (consumed : List ScopePos) (merged : List (ScopePos × RangeSlider)) :
    Nat → List FormFieldNode → List FormFieldNode
  | _, [] => []
  | i, c :: rest => rebuildChild consumed merged i c ++ rebuildAux consumed merged (i + 1) rest

/-- Rewrite a children list according to the consumed positions and merged
fields of its pairing pass. -/
def rebuildChildren (cs : List FormFieldNode) (consumed : List ScopePos)
    (merged : List (ScopePos × RangeSlider)) : List FormFieldNode :=
  rebuildAux consumed merged 0 cs

/-- One pairing pass over a children list: find the matched pairs of the
scope, build their merged fields, and rewrite the list. -/
def mergeLevel (cs : List FormFieldNode) : Except MergeError (List FormFieldNode) :=
  match buildAllPairs (pairsForScope (scopeSliders cs)) with
  | .error e => .error e
  | .ok merged =>
      .ok (rebuildChildren cs (consumedOf (pairsForScope (scopeSliders cs))) merged)

mutual

/-- Modelled from the spec: `mergeRangeSliders` (its module is not in the
corpus; only its unit tests are).  The model follows the spec's per-pair
construction rules and error cases, and the pairing scope mandated by the
repository's test fixtures: at every group, temporary sliders among the
group's direct children and among the direct children of its direct subgroups
are paired by `sliderRangeId` (first `down` with first `up`); each matched
pair is replaced by one merged `range slider` field at the earlier endpoint's
slot, and subgroups emptied by the consumption are pruned.  Subgroups are
merged before their parent's own pairing pass. -/
def mergeRangeSliders : FormFieldNode → Except MergeError FormFieldNode
  | FormFieldNode.field f => .ok (FormFieldNode.field f)
  | FormFieldNode.group seg cs =>
    match mergeRangeSlidersList cs with
    | .error e => .error e
    | .ok cs1 =>
      match mergeLevel cs1 with
      | .error e => .error e
      | .ok cs2 => .ok (FormFieldNode.group seg cs2)

/-- Merge every node of a children list. -/
def mergeRangeSlidersList : List FormFieldNode → Except MergeError (List FormFieldNode)
  | [] => .ok []
  | c :: rest =>
    match mergeRangeSliders c with
    | .error e => .error e
    | .ok c1 =>
      match mergeRangeSlidersList rest with
      | .error e => .error e
      | .ok rest1 => .ok (c1 :: rest1)

end

/-- Payload of the cpu `down` slider of both test fixtures. -/
def cpuDownPayload : TemporaryRangeSliderPayload where
  isReadonly := false
  sliderMin := 50
  sliderMax := 40000
  sliderStep := 50
  sliderUnit := "m"
  sliderExtremitySemantic := "guaranteed"
  sliderRangeId := "cpu"
  helmValue := "150m"
  helmValuesPath := ["resources", "requests", "cpu"]
  description := "The amount of cpu guaranteed"
  sliderExtremity := .down
  title := some "CPU"

/-- Payload of the cpu `up` slider of the base-case fixture. -/
def cpuUpBasePayload : TemporaryRangeSliderPayload where
  isReadonly := true
  sliderMin := 50
  sliderMax := 40000
  sliderStep := 50
  sliderUnit := "m"
  sliderExtremitySemantic := "Maximum"
  sliderRangeId := "cpu"
  helmValue := "30000m"
  helmValuesPath := ["resources", "limits", "cpu"]
  description := "The maximum amount of cpu"
  sliderExtremity := .up

/-- Payload of the cpu `up` slider of the two-slider fixture (same as the
base case except `isReadonly`). -/
def cpuUpTwoPayload : TemporaryRangeSliderPayload :=
  { cpuUpBasePayload with isReadonly := false }

/-- Payload of the memory `down` slider of the two-slider fixture. -/
def memDownPayload : TemporaryRangeSliderPayload where
  isReadonly := false
  sliderMin := 1
  sliderMax := 200
  sliderStep := 1
  sliderUnit := "Gi"
  sliderExtremitySemantic := "guaranteed"
  sliderRangeId := "memory"
  helmValue := "2Gi"
  helmValuesPath := ["resources", "requests", "memory"]
  description := "The amount of memory guaranteed"
  sliderExtremity := .down
  title := some "memory"

/-- Payload of the memory `up` slider of the two-slider fixture. -/
def memUpPayload : TemporaryRangeSliderPayload where
  isReadonly := false
  sliderMin := 1
  sliderMax := 200
  sliderStep := 1
  sliderUnit := "Gi"
  sliderExtremitySemantic := "Maximum"
  sliderRangeId := "memory"
  helmValue := "50Gi"
  helmValuesPath := ["resources", "limits", "memory"]
  description := "The maximum amount of memory"
  sliderExtremity := .up

/-- Input tree of the base-case test. -/
def baseCaseInput : FormFieldNode :=
  FormFieldNode.group "root" [
    FormFieldNode.group "resources" [
      FormFieldNode.group "requests" [createTemporaryRangeSlider cpuDownPayload],
      FormFieldNode.group "limits" [createTemporaryRangeSlider cpuUpBasePayload]]]

/-- Merged cpu field expected by the base-case test. -/
def cpuMergedBase : RangeSlider where
  title := "CPU"
  unit := "m"
  step := 50
  lowEndRange := {
    isReadonly := false
    helmValuesPath := ["resources", "requests", "cpu"]
    value := 150
    rangeEndSemantic := "guaranteed"
    min := 50
    max := 40000
    description := "The amount of cpu guaranteed" }
  highEndRange := {
    isReadonly := true
    helmValuesPath := ["resources", "limits", "cpu"]
    value := 30000
    rangeEndSemantic := "Maximum"
    min := 50
    max := 40000
    description := "The maximum amount of cpu" }

/-- Expected tree of the base-case test. -/
def baseCaseExpected : FormFieldNode :=
  FormFieldNode.group "root" [
    FormFieldNode.group "resources" [
      FormFieldNode.field (FormField.rangeSlider cpuMergedBase)]]

/-- Input tree of the two-slider test. -/
def twoSlidersInput : FormFieldNode :=
  FormFieldNode.group "root" [
    FormFieldNode.group "resources" [
      FormFieldNode.group "requests" [
        createTemporaryRangeSlider cpuDownPayload,
        createTemporaryRangeSlider memDownPayload],
      FormFieldNode.group "limits" [
        createTemporaryRangeSlider cpuUpTwoPayload,
        createTemporaryRangeSlider memUpPayload]]]

/-- Merged cpu field expected by the two-slider test. -/
def cpuMergedTwo : RangeSlider :=
  { cpuMergedBase with highEndRange := { cpuMergedBase.highEndRange with isReadonly := false } }

/-- Merged memory field expected by the two-slider test. -/
def memMerged : RangeSlider where
  title := "memory"
  unit := "Gi"
  step := 1
  lowEndRange := {
    isReadonly := false
    helmValuesPath := ["resources", "requests", "memory"]
    value := 2
    rangeEndSemantic := "guaranteed"
    min := 1
    max := 200
    description := "The amount of memory guaranteed" }
  highEndRange := {
    isReadonly := false
    helmValuesPath := ["resources", "limits", "memory"]
    value := 50
    rangeEndSemantic := "Maximum"
    min := 1
    max := 200
    description := "The maximum amount of memory" }

/-- Expected tree of the two-slider test. -/
def twoSlidersExpected : FormFieldNode :=
  FormFieldNode.group "root" [
    FormFieldNode.group "resources" [
      FormFieldNode.field (FormField.rangeSlider cpuMergedTwo),
      FormFieldNode.field (FormField.rangeSlider memMerged)]]

mutual

/-- Number of temporary-range-slider leaves of a node. -/
def tempCountNode : FormFieldNode → Nat
  | FormFieldNode.field (FormField.temporaryRangeSlider _) => 1
  | FormFieldNode.field (FormField.rangeSlider _) => 0
  | FormFieldNode.field (FormField.other _ _) => 0
  | FormFieldNode.group _ cs => tempCountList cs

/-- Number of temporary-range-slider leaves of a children list. -/
def tempCountList : List FormFieldNode → Nat
  | [] => 0
  | c :: rest => tempCountNode c + tempCountList rest

end

mutual

/-- Path segments of all group nodes of a node, in depth-first order. -/
def groupSegsNode : FormFieldNode → List String
  | FormFieldNode.field _ => []
  | FormFieldNode.group seg cs => seg :: groupSegsList cs

/-- Path segments of all group nodes of a children list. -/
def groupSegsList : List FormFieldNode → List String
  | [] => []
  | c :: rest => groupSegsNode c ++ groupSegsList rest

end

mutual

/-- Whether the node holds a childless group node anywhere. -/
def hasEmptyGroupNode : FormFieldNode → Bool
  | FormFieldNode.field _ => false
  | FormFieldNode.group _ cs => cs.isEmpty || hasEmptyGroupList cs

/-- Whether the children list holds a childless group node anywhere. -/
def hasEmptyGroupList : List FormFieldNode → Bool
  | [] => false
  | c :: rest => hasEmptyGroupNode c || hasEmptyGroupList rest

end

/-- Pairing key (range id and extremity) of a direct temporary-slider child. -/
def sliderKeyOf : FormFieldNode → Option (String × SliderExtremity)
  | FormFieldNode.field (FormField.temporaryRangeSlider p) =>
      some (p.sliderRangeId, p.sliderExtremity)
  | FormFieldNode.field (FormField.rangeSlider _) => none
  | FormFieldNode.field (FormField.other _ _) => none
  | FormFieldNode.group _ _ => none

/-- Pairing keys of the direct temporary-slider children of a children list. -/
def directSliderKeys (cs : List FormFieldNode) : List (String × SliderExtremity) :=
  cs.filterMap sliderKeyOf

/-- Whether a list of pairing keys pairs off completely: every key occurs
exactly once and its opposite-extremity key is present. -/
def keysPaired (K : List (String × SliderExtremity)) : Bool :=
  K.all (fun k => decide (K.countP (fun x => decide (x = k)) = 1 ∧ (k.1, oppExt k.2) ∈ K))

mutual

/-- Whether every temporary slider of the tree has a matching
opposite-extremity partner among its direct siblings, each pairing being
unambiguous (spec §3: every temporary slider is paired with exactly one
sibling of the same `sliderRangeId` and opposite extremity). -/
def resolvesFully : FormFieldNode → Bool
  | FormFieldNode.field (FormField.temporaryRangeSlider _) => false
  | FormFieldNode.field (FormField.rangeSlider _) => true
  | FormFieldNode.field (FormField.other _ _) => true
  | FormFieldNode.group _ cs => keysPaired (directSliderKeys cs) && resolvesChildren cs

/-- Whether every subgroup of a children list resolves fully (direct slider
children are accounted for by their parent's `keysPaired` check). -/
def resolvesChildren : List FormFieldNode → Bool
  | [] => true
  | FormFieldNode.group seg gcs :: rest =>
      resolvesFully (FormFieldNode.group seg gcs) && resolvesChildren rest
  | FormFieldNode.field _ :: rest => resolvesChildren rest

end

/-- Whether a node is a merged `range slider` field leaf. -/
def isMergedField : FormFieldNode → Bool
  | FormFieldNode.field (FormField.rangeSlider _) => true
  | FormFieldNode.field (FormField.temporaryRangeSlider _) => false
  | FormFieldNode.field (FormField.other _ _) => false
  | FormFieldNode.group _ _ => false

/-- Whether the tree is a root group holding exactly one `resources` group
whose children are a non-empty run of merged range-slider fields. -/
def mergedDirectlyUnderResources : FormFieldNode → Bool
  | FormFieldNode.group _ [FormFieldNode.group seg rcs] =>
      decide (seg = "resources") && !rcs.isEmpty && rcs.all isMergedField
  | FormFieldNode.group _ [] => false
  | FormFieldNode.group _ (_ :: _ :: _) => false
  | FormFieldNode.group _ [FormFieldNode.field _] => false
  | FormFieldNode.field _ => false

/-- Number of direct children of a node. -/
def childCount : FormFieldNode → Nat
  | FormFieldNode.field _ => 0
  | FormFieldNode.group _ cs => cs.length

/-- Children used to refute the sibling-pair children-count claim: exactly
one `down` and one `up` temporary slider sharing the range id `memory` sit
among the direct children, while the two subgroups hold the cpu pair. -/
def mixedPairChildren : List FormFieldNode :=
  [FormFieldNode.group "requests" [createTemporaryRangeSlider cpuDownPayload],
   FormFieldNode.group "limits" [createTemporaryRangeSlider cpuUpBasePayload],
   createTemporaryRangeSlider memDownPayload,
   createTemporaryRangeSlider memUpPayload]

/-- Group over `mixedPairChildren`. -/
def mixedPairGroup : FormFieldNode :=
  FormFieldNode.group "g" mixedPairChildren

/-- Result of merging `mixedPairGroup`. -/
def mixedPairGroupMerged : FormFieldNode :=
  FormFieldNode.group "g" [
    FormFieldNode.field (FormField.rangeSlider cpuMergedBase),
    FormFieldNode.field (FormField.rangeSlider memMerged)]

mutual

/-- Left-to-right sequence of the field leaves of a node satisfying the
given predicate. -/
def fieldSeqNode (pred : FormField → Bool) : FormFieldNode → List FormField
  | FormFieldNode.field f => if pred f then [f] else []
  | FormFieldNode.group _ cs => fieldSeqList pred cs

/-- Left-to-right sequence of the field leaves of a children list satisfying
the given predicate. -/
def fieldSeqList (pred : FormField → Bool) : List FormFieldNode → List FormField
  | [] => []
  | c :: rest => fieldSeqNode pred c ++ fieldSeqList pred rest

end

/-- Selects the temporary sliders carrying exactly the given payload. -/
def payloadPred (p : TemporaryRangeSliderPayload) : FormField → Bool
  | FormField.temporaryRangeSlider q => decide (q = p)
  | FormField.rangeSlider _ => false
  | FormField.other _ _ => false

/-- Selects the temporary sliders of the given payload's range id and of the
opposite extremity — its potential merge partners. -/
def oppositeKeyPred (p : TemporaryRangeSliderPayload) : FormField → Bool
  | FormField.temporaryRangeSlider q =>
      decide (q.sliderRangeId = p.sliderRangeId ∧
        q.sliderExtremity = oppExt p.sliderExtremity)
  | FormField.rangeSlider _ => false
  | FormField.other _ _ => false

/-- Selects the `other` field leaves. -/
def isOtherField : FormField → Bool
  | FormField.temporaryRangeSlider _ => false
  | FormField.rangeSlider _ => false
  | FormField.other _ _ => true

/-- Whether a node is a temporary-range-slider field leaf. -/
def isTempFieldNode : FormFieldNode → Bool
  | FormFieldNode.field (FormField.temporaryRangeSlider _) => true
  | FormFieldNode.field (FormField.rangeSlider _) => false
  | FormFieldNode.field (FormField.other _ _) => false
  | FormFieldNode.group _ _ => false

/-- Whether a node contributes no entry to its parent's pairing scope. -/
def contributesNoScope : FormFieldNode → Bool
  | FormFieldNode.field (FormField.temporaryRangeSlider _) => false
  | FormFieldNode.field (FormField.rangeSlider _) => true
  | FormFieldNode.field (FormField.other _ _) => true
  | FormFieldNode.group _ gcs => gcs.all (fun d => !isTempFieldNode d)

/-- Whether a merge result is an error raised to the caller. -/
def isError : Except MergeError FormFieldNode → Bool
  | .error _ => true
  | .ok _ => false

/-- A `down` endpoint with an unparsable raw value, used as failing input. -/
def malformedCpuDown : TemporaryRangeSliderPayload :=
  { cpuDownPayload with helmValue := "abc" }

/-- A `down` endpoint carrying no title, used as failing input. -/
def untitledCpuDown : TemporaryRangeSliderPayload :=
  { cpuDownPayload with title := none }

/-- Direct-child slider entries of a children list, child index starting at
`i`. -/
def directScopeAux : Nat → List FormFieldNode → List ScopeEntry
  | _, [] => []
  | i, FormFieldNode.field (FormField.temporaryRangeSlider p) :: rest =>
      ((i, none), p) :: directScopeAux (i + 1) rest
  | i, FormFieldNode.field (FormField.rangeSlider _) :: rest => directScopeAux (i + 1) rest
  | i, FormFieldNode.field (FormField.other _ _) :: rest => directScopeAux (i + 1) rest
  | i, FormFieldNode.group _ _ :: rest => directScopeAux (i + 1) rest

/-- Pairing key of a scope entry. -/
def entryKey (e : ScopeEntry) : String × SliderExtremity :=
  (e.2.sliderRangeId, e.2.sliderExtremity)

/-- Entries of `subSliders` carry child index `i` and a sub-index at least
`j0`. -/
theorem subSliders_range (i : Nat) :
    ∀ (j0 : Nat) (gcs : List FormFieldNode) (e : ScopeEntry),
      e ∈ subSliders i j0 gcs → e.1.1 = i ∧ ∃ j, e.1.2 = some j ∧ j0 ≤ j := by
  intro j0 gcs
  induction gcs generalizing j0 with
  | nil => intro e he; cases he
  | cons d rest ih =>
    intro e he
    rw [subSliders, List.mem_append] at he
    rcases he with he | he
    · cases d with
      | field f =>
        cases f with
        | temporaryRangeSlider p =>
          rw [subEntryOfChild, List.mem_singleton] at he
          subst he
          exact ⟨rfl, j0, rfl, Nat.le_refl _⟩
        | rangeSlider r => cases he
        | other ft ti => cases he
      | group seg gcs2 => cases he
    · obtain ⟨h1, j, h2, h3⟩ := ih (j0 + 1) e he
      exact ⟨h1, j, h2, by omega⟩

/-- Entries of `scopeEntriesOfChild` carry child index `i`. -/
theorem scopeEntriesOfChild_range (i : Nat) (c : FormFieldNode) (e : ScopeEntry)
    (he : e ∈ scopeEntriesOfChild i c) : e.1.1 = i := by
  cases c with
  | field f =>
    cases f with
    | temporaryRangeSlider p =>
      rw [scopeEntriesOfChild, List.mem_singleton] at he
      subst he
      rfl
    | rangeSlider r => cases he
    | other ft ti => cases he
  | group seg gcs => exact (subSliders_range i 0 gcs e he).1

/-- Entries of `scopeSlidersAux` carry a child index at least `i0`. -/
theorem scopeSlidersAux_range :
    ∀ (cs : List FormFieldNode) (i0 : Nat) (e : ScopeEntry),
      e ∈ scopeSlidersAux i0 cs → i0 ≤ e.1.1 := by
  intro cs
  induction cs with
  | nil => intro i0 e he; cases he
  | cons c rest ih =>
    intro i0 e he
    rw [scopeSlidersAux, List.mem_append] at he
    rcases he with he | he
    · exact Nat.le_of_eq (scopeEntriesOfChild_range i0 c e he).symm
    · exact Nat.le_of_succ_le (ih (i0 + 1) e he)

/-- Within `subSliders`, a position determines its payload. -/
theorem subSliders_functional (i : Nat) :
    ∀ (j0 : Nat) (gcs : List FormFieldNode) (pos : ScopePos)
      (q q' : TemporaryRangeSliderPayload),
      (pos, q) ∈ subSliders i j0 gcs → (pos, q') ∈ subSliders i j0 gcs → q = q' := by
  intro j0 gcs
  induction gcs generalizing j0 with
  | nil => intro pos q q' hq hq'; cases hq
  | cons d rest ih =>
    intro pos q q' hq hq'
    rw [subSliders, List.mem_append] at hq hq'
    have hhead : ∀ r : TemporaryRangeSliderPayload,
        (pos, r) ∈ subEntryOfChild i j0 d → pos.2 = some j0 := by
      intro r hr
      cases d with
      | field f =>
        cases f with
        | temporaryRangeSlider p =>
          rw [subEntryOfChild, List.mem_singleton] at hr
          cases hr
          rfl
        | rangeSlider x => cases hr
        | other ft ti => cases hr
      | group seg gcs2 => cases hr
    rcases hq with hq | hq
    · rcases hq' with hq' | hq'
      · cases d with
        | field f =>
          cases f with
          | temporaryRangeSlider p =>
            rw [subEntryOfChild, List.mem_singleton] at hq hq'
            cases hq
            cases hq'
            rfl
          | rangeSlider x => cases hq
          | other ft ti => cases hq
        | group seg gcs2 => cases hq
      · obtain ⟨_, j, hj, hj0⟩ := subSliders_range i (j0 + 1) rest _ hq'
        have := hhead q hq
        rw [this] at hj
        cases hj
        omega
    · rcases hq' with hq' | hq'
      · obtain ⟨_, j, hj, hj0⟩ := subSliders_range i (j0 + 1) rest _ hq
        have := hhead q' hq'
        rw [this] at hj
        cases hj
        omega
      · exact ih (j0 + 1) pos q q' hq hq'

/-- Within `scopeEntriesOfChild`, a position determines its payload. -/
theorem scopeEntriesOfChild_functional (i : Nat) (c : FormFieldNode) (pos : ScopePos)
    (q q' : TemporaryRangeSliderPayload)
    (hq : (pos, q) ∈ scopeEntriesOfChild i c) (hq' : (pos, q') ∈ scopeEntriesOfChild i c) :
    q = q' := by
  cases c with
  | field f =>
    cases f with
    | temporaryRangeSlider p =>
      rw [scopeEntriesOfChild, List.mem_singleton] at hq hq'
      cases hq
      cases hq'
      rfl
    | rangeSlider r => cases hq
    | other ft ti => cases hq
  | group seg gcs => exact subSliders_functional i 0 gcs pos q q' hq hq'

/-- Within a pairing scope, a position determines its payload. -/
theorem scopeSlidersAux_functional :
    ∀ (cs : List FormFieldNode) (i0 : Nat) (pos : ScopePos)
      (q q' : TemporaryRangeSliderPayload),
      (pos, q) ∈ scopeSlidersAux i0 cs → (pos, q') ∈ scopeSlidersAux i0 cs → q = q' := by
  intro cs
  induction cs with
  | nil => intro i0 pos q q' hq hq'; cases hq
  | cons c rest ih =>
    intro i0 pos q q' hq hq'
    rw [scopeSlidersAux, List.mem_append] at hq hq'
    rcases hq with hq | hq
    · rcases hq' with hq' | hq'
      · exact scopeEntriesOfChild_functional i0 c pos q q' hq hq'
      · have h1 : pos.1 = i0 := scopeEntriesOfChild_range i0 c _ hq
        have h2 : i0 + 1 ≤ pos.1 := scopeSlidersAux_range rest (i0 + 1) _ hq'
        omega
    · rcases hq' with hq' | hq'
      · have h1 : pos.1 = i0 := scopeEntriesOfChild_range i0 c _ hq'
        have h2 : i0 + 1 ≤ pos.1 := scopeSlidersAux_range rest (i0 + 1) _ hq
        omega
      · exact ih (i0 + 1) pos q q' hq hq'

/-- The pairing scope splits along list concatenation. -/
theorem scopeSlidersAux_append :
    ∀ (xs ys : List FormFieldNode) (i : Nat),
      scopeSlidersAux i (xs ++ ys) =
        scopeSlidersAux i xs ++ scopeSlidersAux (i + xs.length) ys := by
  intro xs
  induction xs with
  | nil => intro ys i; simp [scopeSlidersAux]
  | cons c rest ih =>
    intro ys i
    rw [List.cons_append, scopeSlidersAux, scopeSlidersAux, ih, List.length_cons,
      List.append_assoc]
    have : i + 1 + rest.length = i + (rest.length + 1) := by omega
    rw [this]

/-- A subgroup with no direct temporary-slider child contributes no scope
entries. -/
theorem subSliders_eq_nil (i : Nat) :
    ∀ (j0 : Nat) (gcs : List FormFieldNode),
      (∀ d ∈ gcs, isTempFieldNode d = false) → subSliders i j0 gcs = [] := by
  intro j0 gcs
  induction gcs generalizing j0 with
  | nil => intro h; rfl
  | cons d rest ih =>
    intro h
    rw [subSliders]
    have hd : subEntryOfChild i j0 d = [] := by
      have := h d (List.mem_cons_self d rest)
      cases d with
      | field f =>
        cases f with
        | temporaryRangeSlider p => cases this
        | rangeSlider r => rfl
        | other ft ti => rfl
      | group seg gcs2 => rfl
    rw [hd, List.nil_append]
    exact ih (j0 + 1) (fun d2 hd2 => h d2 (List.mem_cons_of_mem d hd2))

/-- Children contributing no scope entry produce an empty pairing scope. -/
theorem scopeSlidersAux_eq_nil :
    ∀ (cs : List FormFieldNode) (i : Nat),
      (∀ n ∈ cs, contributesNoScope n = true) → scopeSlidersAux i cs = [] := by
  intro cs
  induction cs with
  | nil => intro i h; rfl
  | cons c rest ih =>
    intro i h
    rw [scopeSlidersAux]
    have hc : scopeEntriesOfChild i c = [] := by
      have hcns := h c (List.mem_cons_self c rest)
      cases c with
      | field f =>
        cases f with
        | temporaryRangeSlider p => cases hcns
        | rangeSlider r => rfl
        | other ft ti => rfl
      | group seg gcs =>
        rw [contributesNoScope, List.all_eq_true] at hcns
        rw [scopeEntriesOfChild]
        exact subSliders_eq_nil i 0 gcs
          (fun d hd => by simpa using hcns d hd)
    rw [hc, List.nil_append]
    exact ih (i + 1) (fun n hn => h n (List.mem_cons_of_mem c hn))
/-- The field sequence of a singleton list is the node's sequence. -/
theorem fieldSeqList_singleton (pred : FormField → Bool) (n : FormFieldNode) :
    fieldSeqList pred [n] = fieldSeqNode pred n := by
  rw [fieldSeqList, fieldSeqList, List.append_nil]

/-- The children rewrite splits along list concatenation. -/
theorem rebuildAux_append (consumed : List ScopePos) (merged : List (ScopePos × RangeSlider)) :
    ∀ (xs ys : List FormFieldNode) (i : Nat),
      rebuildAux consumed merged i (xs ++ ys) =
        rebuildAux consumed merged i xs ++ rebuildAux consumed merged (i + xs.length) ys := by
  intro xs
  induction xs with
  | nil => intro ys i; simp [rebuildAux]
  | cons c rest ih =>
    intro ys i
    rw [List.cons_append, rebuildAux, rebuildAux, ih, List.length_cons, List.append_assoc]
    have : i + 1 + rest.length = i + (rest.length + 1) := by omega
    rw [this]

/-- Removing consumed subgroup children is the identity when no consumed
position points into the subgroup. -/
theorem removeConsumedSub_id (i : Nat) (consumed : List ScopePos)
    (h : ∀ j, (i, some j) ∉ consumed) :
    ∀ (j0 : Nat) (gcs : List FormFieldNode), removeConsumedSub i consumed j0 gcs = gcs := by
  intro j0 gcs
  induction gcs generalizing j0 with
  | nil => rfl
  | cons d rest ih =>
    rw [removeConsumedSub, if_neg (h j0), List.singleton_append, ih (j0 + 1)]

/-- The children rewrite is the identity on an index range free of consumed
positions and merged-field anchors. -/
theorem rebuildAux_id (consumed : List ScopePos) (merged : List (ScopePos × RangeSlider)) :
    ∀ (cs : List FormFieldNode) (i : Nat),
      (∀ pos ∈ consumed, pos.1 < i ∨ i + cs.length ≤ pos.1) →
      (∀ mm ∈ merged, mm.1.1 < i ∨ i + cs.length ≤ mm.1.1) →
      rebuildAux consumed merged i cs = cs := by
  intro cs
  induction cs with
  | nil => intro i hcon hmer; rfl
  | cons c rest ih =>
    intro i hcon hmer
    rw [rebuildAux]
    have htail : rebuildAux consumed merged (i + 1) rest = rest := by
      refine ih (i + 1) (fun pos hpos => ?_) (fun mm hmm => ?_)
      · rcases hcon pos hpos with h1 | h1
        · exact Or.inl (by omega)
        · exact Or.inr (by rw [List.length_cons] at h1; omega)
      · rcases hmer mm hmm with h1 | h1
        · exact Or.inl (by omega)
        · exact Or.inr (by rw [List.length_cons] at h1; omega)
    rw [htail]
    have hnotcon : ∀ sub : Option Nat, ((i, sub) : ScopePos) ∉ consumed := by
      intro sub hmem
      rcases hcon _ hmem with h1 | h1
      · exact absurd h1 (by omega)
      · rw [List.length_cons] at h1
        exact absurd h1 (by omega)
    have hfilter1 : merged.filter (fun m => decide (m.1.1 = i ∧ m.1.2 ≠ none)) = [] := by
      rw [List.filter_eq_nil_iff]
      intro mm hmm
      rcases hmer mm hmm with h1 | h1
      · simp only [decide_eq_true_eq]
        rintro ⟨h2, _⟩
        omega
      · rw [List.length_cons] at h1
        simp only [decide_eq_true_eq]
        rintro ⟨h2, _⟩
        omega
    have hhead : rebuildChild consumed merged i c = [c] := by
      cases c with
      | field f =>
        cases f with
        | temporaryRangeSlider p =>
          rw [rebuildChild, if_neg (hnotcon none)]
        | rangeSlider r => rfl
        | other ft ti => rfl
      | group seg gcs =>
        rw [rebuildChild, hfilter1,
          removeConsumedSub_id i consumed (fun j => hnotcon (some j)) 0 gcs]
        cases gcs with
        | nil => rfl
        | cons d drest => rfl
    rw [hhead]
    rfl

/-- Merging a field leaf is the identity. -/
theorem mergeRangeSliders_field (fl : FormField) :
    mergeRangeSliders (FormFieldNode.field fl) = .ok (FormFieldNode.field fl) := rfl

/-- A children list with no temporary slider has every member free of
temporary sliders. -/
theorem tempCountList_zero_of :
    ∀ (cs : List FormFieldNode), tempCountList cs = 0 →
      ∀ n ∈ cs, tempCountNode n = 0 := by
  intro cs
  induction cs with
  | nil => intro h n hn; cases hn
  | cons c rest ih =>
    intro h n hn
    rw [tempCountList] at h
    rcases List.mem_cons.mp hn with hn | hn
    · subst hn; omega
    · exact ih (by omega) n hn

/-- A node free of temporary sliders contributes no scope entry. -/
theorem contributesNoScope_of_tempCount (n : FormFieldNode)
    (h : tempCountNode n = 0) : contributesNoScope n = true := by
  cases n with
  | field f =>
    cases f with
    | temporaryRangeSlider p => cases h
    | rangeSlider r => rfl
    | other ft ti => rfl
  | group seg gcs =>
    rw [tempCountNode] at h
    rw [contributesNoScope, List.all_eq_true]
    intro d hd
    have hz := tempCountList_zero_of gcs h d hd
    cases d with
    | field f =>
      cases f with
      | temporaryRangeSlider p => cases hz
      | rangeSlider r => rfl
      | other ft ti => rfl
    | group seg2 gcs2 => rfl

/-- A pairing pass over a children list with an empty scope is the
identity. -/
theorem mergeLevel_of_no_scope (cs : List FormFieldNode)
    (h : scopeSliders cs = []) : mergeLevel cs = .ok cs := by
  rw [mergeLevel, h]
  show Except.ok (rebuildChildren cs [] []) = .ok cs
  rw [rebuildChildren, rebuildAux_id [] [] cs 0
    (fun pos hpos => absurd hpos (List.not_mem_nil pos))
    (fun mm hmm => absurd hmm (List.not_mem_nil mm))]

mutual

/-- Merging a node free of temporary sliders is the identity. -/
theorem mergeRangeSliders_id_of_no_temp :
    ∀ n : FormFieldNode, tempCountNode n = 0 → mergeRangeSliders n = .ok n
  | FormFieldNode.field fl, _ => mergeRangeSliders_field fl
  | FormFieldNode.group seg cs, h => by
    have hcs : tempCountList cs = 0 := h
    have hl := mergeRangeSlidersList_id_of_no_temp cs hcs
    have hml : mergeLevel cs = .ok cs :=
      mergeLevel_of_no_scope cs (scopeSlidersAux_eq_nil cs 0 (fun n hn =>
        contributesNoScope_of_tempCount n (tempCountList_zero_of cs hcs n hn)))
    simp only [mergeRangeSliders, hl, hml]

/-- Merging a children list free of temporary sliders is the identity. -/
theorem mergeRangeSlidersList_id_of_no_temp :
    ∀ cs : List FormFieldNode, tempCountList cs = 0 → mergeRangeSlidersList cs = .ok cs
  | [], _ => rfl
  | c :: rest, h => by
    have h1 : tempCountNode c = 0 := by
      rw [tempCountList] at h
      omega
    have h2 : tempCountList rest = 0 := by
      rw [tempCountList] at h
      omega
    have hc := mergeRangeSliders_id_of_no_temp c h1
    have hrest := mergeRangeSlidersList_id_of_no_temp rest h2
    simp only [mergeRangeSlidersList, hc, hrest]

end

/-- Merging a children list each of whose members merges to itself is the
identity. -/
theorem mergeRangeSlidersList_id_of_each :
    ∀ cs : List FormFieldNode,
      (∀ n ∈ cs, mergeRangeSliders n = .ok n) → mergeRangeSlidersList cs = .ok cs := by
  intro cs
  induction cs with
  | nil => intro h; rfl
  | cons c rest ih =>
    intro h
    have hc := h c (List.mem_cons_self c rest)
    have hrest := ih (fun n hn => h n (List.mem_cons_of_mem c hn))
    simp only [mergeRangeSlidersList, hc, hrest]

/-- The field sequence splits along list concatenation. -/
theorem fieldSeqList_append (pred : FormField → Bool) :
    ∀ xs ys : List FormFieldNode,
      fieldSeqList pred (xs ++ ys) = fieldSeqList pred xs ++ fieldSeqList pred ys := by
  intro xs ys
  induction xs with
  | nil => rfl
  | cons c rest ih => rw [List.cons_append, fieldSeqList, fieldSeqList, ih, List.append_assoc]

/-- Inserted merged fields are invisible to a predicate rejecting range
sliders. -/
theorem fieldSeqList_map_merged (pred : FormField → Bool)
    (hRS : ∀ r, pred (FormField.rangeSlider r) = false) :
    ∀ ms : List (ScopePos × RangeSlider),
      fieldSeqList pred
        (ms.map (fun m => FormFieldNode.field (FormField.rangeSlider m.2))) = [] := by
  intro ms
  induction ms with
  | nil => rfl
  | cons m rest ih =>
    rw [List.map_cons, fieldSeqList, ih, List.append_nil, fieldSeqNode, hRS m.2,
      if_neg Bool.false_ne_true]

/-- A scope entry selected by the predicate appears in the field sequence of
the subgroup's children. -/
theorem fieldSeq_of_subSliders_mem (pred : FormField → Bool) (i : Nat) :
    ∀ (gcs : List FormFieldNode) (j0 : Nat) (e : ScopeEntry),
      e ∈ subSliders i j0 gcs →
      pred (FormField.temporaryRangeSlider e.2) = true →
      FormField.temporaryRangeSlider e.2 ∈ fieldSeqList pred gcs := by
  intro gcs
  induction gcs with
  | nil => intro j0 e he; cases he
  | cons d rest ih =>
    intro j0 e he hp
    rw [subSliders, List.mem_append] at he
    rw [fieldSeqList, List.mem_append]
    rcases he with he | he
    · left
      cases d with
      | field f =>
        cases f with
        | temporaryRangeSlider p =>
          rw [subEntryOfChild, List.mem_singleton] at he
          subst he
          rw [fieldSeqNode, if_pos hp]
          exact List.mem_singleton.mpr rfl
        | rangeSlider r => cases he
        | other ft ti => cases he
      | group seg gcs2 => cases he
    · exact Or.inr (ih (j0 + 1) e he hp)

/-- A scope entry selected by the predicate appears in the field sequence of
the children list. -/
theorem fieldSeq_of_scope_mem (pred : FormField → Bool) :
    ∀ (cs : List FormFieldNode) (i : Nat) (e : ScopeEntry),
      e ∈ scopeSlidersAux i cs →
      pred (FormField.temporaryRangeSlider e.2) = true →
      FormField.temporaryRangeSlider e.2 ∈ fieldSeqList pred cs := by
  intro cs
  induction cs with
  | nil => intro i e he; cases he
  | cons c rest ih =>
    intro i e he hp
    rw [scopeSlidersAux, List.mem_append] at he
    rw [fieldSeqList, List.mem_append]
    rcases he with he | he
    · left
      cases c with
      | field f =>
        cases f with
        | temporaryRangeSlider p =>
          rw [scopeEntriesOfChild, List.mem_singleton] at he
          subst he
          rw [fieldSeqNode, if_pos hp]
          exact List.mem_singleton.mpr rfl
        | rangeSlider r => cases he
        | other ft ti => cases he
      | group seg gcs =>
        rw [fieldSeqNode]
        exact fieldSeq_of_subSliders_mem pred i gcs 0 e he hp
    · exact Or.inr (ih (i + 1) e he hp)

/-- Every matched pair consists of a `down` and an `up` scope entry sharing
a range id. -/
theorem pairsForScope_mem (S : List ScopeEntry) (pr : ScopeEntry × ScopeEntry)
    (h : pr ∈ pairsForScope S) :
    pr.1 ∈ S ∧ pr.2 ∈ S ∧ pr.1.2.sliderExtremity = .down ∧
      pr.2.2.sliderExtremity = .up ∧ pr.2.2.sliderRangeId = pr.1.2.sliderRangeId := by
  rw [pairsForScope, List.mem_filterMap] at h
  obtain ⟨rid, _, hmatch⟩ := h
  cases hfd : scopeFind S .down rid with
  | none => rw [hfd] at hmatch; cases hfu : scopeFind S .up rid <;> rw [hfu] at hmatch <;>
      cases hmatch
  | some d =>
    cases hfu : scopeFind S .up rid with
    | none => rw [hfd, hfu] at hmatch; cases hmatch
    | some u =>
      rw [hfd, hfu] at hmatch
      cases hmatch
      rw [scopeFind] at hfd hfu
      have hd1 := List.find?_some hfd
      have hu1 := List.find?_some hfu
      rw [decide_eq_true_eq] at hd1 hu1
      exact ⟨List.mem_of_find?_eq_some hfd, List.mem_of_find?_eq_some hfu, hd1.2, hu1.2,
        hu1.1.trans hd1.1.symm⟩

/-- Every consumed position is an endpoint position of some matched pair. -/
theorem consumedOf_mem :
    ∀ (pairs : List (ScopeEntry × ScopeEntry)) (pos : ScopePos),
      pos ∈ consumedOf pairs → ∃ pr ∈ pairs, pos = pr.1.1 ∨ pos = pr.2.1 := by
  intro pairs
  induction pairs with
  | nil => intro pos h; cases h
  | cons du rest ih =>
    intro pos h
    rw [show consumedOf (du :: rest) = du.1.1 :: du.2.1 :: consumedOf rest from rfl] at h
    rcases List.mem_cons.mp h with h | h
    · exact ⟨du, List.mem_cons_self du rest, Or.inl h⟩
    · rcases List.mem_cons.mp h with h | h
      · exact ⟨du, List.mem_cons_self du rest, Or.inr h⟩
      · obtain ⟨pr, hpr, hor⟩ := ih pos h
        exact ⟨pr, List.mem_cons_of_mem du hpr, hor⟩

/-- Removing consumed subgroup children only removes field-sequence
entries. -/
theorem fieldSeq_removeConsumedSub_sublist (pred : FormField → Bool)
    (i : Nat) (consumed : List ScopePos) :
    ∀ (gcs : List FormFieldNode) (j0 : Nat),
      (fieldSeqList pred (removeConsumedSub i consumed j0 gcs)).Sublist
        (fieldSeqList pred gcs) := by
  intro gcs
  induction gcs with
  | nil => intro j0; exact List.Sublist.refl _
  | cons d rest ih =>
    intro j0
    rw [removeConsumedSub, fieldSeqList]
    cases hmem : decide ((i, some j0) ∈ consumed) with
    | true =>
      rw [if_pos (of_decide_eq_true hmem), List.nil_append]
      exact List.Sublist.trans (ih (j0 + 1)) (List.sublist_append_right _ _)
    | false =>
      rw [if_neg (of_decide_eq_false hmem), List.singleton_append, fieldSeqList]
      exact List.Sublist.append (List.Sublist.refl _) (ih (j0 + 1))

/-- The children rewrite only removes field-sequence entries (a predicate
rejecting range sliders never sees the inserted merged fields). -/
theorem fieldSeq_rebuildAux_sublist (pred : FormField → Bool)
    (hRS : ∀ r, pred (FormField.rangeSlider r) = false)
    (consumed : List ScopePos) (merged : List (ScopePos × RangeSlider)) :
    ∀ (cs : List FormFieldNode) (i : Nat),
      (fieldSeqList pred (rebuildAux consumed merged i cs)).Sublist
        (fieldSeqList pred cs) := by
  intro cs
  induction cs with
  | nil => intro i; exact List.Sublist.refl _
  | cons c rest ih =>
    intro i
    rw [rebuildAux, fieldSeqList_append, fieldSeqList]
    refine List.Sublist.append ?_ (ih (i + 1))
    cases c with
    | field f =>
      cases f with
      | temporaryRangeSlider p =>
        rw [rebuildChild]
        cases hmem : decide (((i, none) : ScopePos) ∈ consumed) with
        | true =>
          rw [if_pos (of_decide_eq_true hmem), fieldSeqList_map_merged pred hRS]
          exact List.nil_sublist _
        | false =>
          rw [if_neg (of_decide_eq_false hmem), fieldSeqList_singleton]
      | rangeSlider r =>
        rw [rebuildChild, fieldSeqList_singleton]
      | other ft ti =>
        rw [rebuildChild, fieldSeqList_singleton]
    | group seg gcs =>
      rw [rebuildChild, fieldSeqList_append, fieldSeqList_map_merged pred hRS,
        List.nil_append]
      cases hpr : (!gcs.isEmpty && (removeConsumedSub i consumed 0 gcs).isEmpty) with
      | true =>
        rw [if_pos (show (true = true) from rfl)]
        exact List.nil_sublist _
      | false =>
        rw [if_neg Bool.false_ne_true, fieldSeqList_singleton, fieldSeqNode, fieldSeqNode]
        exact fieldSeq_removeConsumedSub_sublist pred i consumed gcs 0

mutual

/-- Merging only removes entries from a field sequence whose predicate
rejects range sliders. -/
theorem fieldSeq_merge_sublist (pred : FormField → Bool)
    (hRS : ∀ r, pred (FormField.rangeSlider r) = false) :
    ∀ (n n' : FormFieldNode), mergeRangeSliders n = .ok n' →
      (fieldSeqNode pred n').Sublist (fieldSeqNode pred n)
  | FormFieldNode.field fl, n', h => by
    rw [show mergeRangeSliders (FormFieldNode.field fl) =
      .ok (FormFieldNode.field fl) from rfl] at h
    cases h
    exact List.Sublist.refl _
  | FormFieldNode.group seg cs, n', h => by
    rw [mergeRangeSliders] at h
    cases hl : mergeRangeSlidersList cs with
    | error e => rw [hl] at h; cases h
    | ok cs1 =>
      rw [hl] at h
      have h2 : (match mergeLevel cs1 with
          | Except.error e => Except.error e
          | Except.ok cs2 => Except.ok (FormFieldNode.group seg cs2)) = Except.ok n' := h
      cases hml : mergeLevel cs1 with
      | error e => rw [hml] at h2; cases h2
      | ok cs2 =>
        rw [hml] at h2
        cases h2
        have h1 : (fieldSeqList pred cs1).Sublist (fieldSeqList pred cs) :=
          fieldSeqList_merge_sublist pred hRS cs cs1 hl
        have h3 : (fieldSeqList pred cs2).Sublist (fieldSeqList pred cs1) := by
          rw [mergeLevel] at hml
          cases hba : buildAllPairs (pairsForScope (scopeSliders cs1)) with
          | error e => rw [hba] at hml; cases hml
          | ok merged =>
            rw [hba] at hml
            cases hml
            exact fieldSeq_rebuildAux_sublist pred hRS _ merged cs1 0
        exact List.Sublist.trans h3 h1

/-- List version of `fieldSeq_merge_sublist`. -/
theorem fieldSeqList_merge_sublist (pred : FormField → Bool)
    (hRS : ∀ r, pred (FormField.rangeSlider r) = false) :
    ∀ (cs cs1 : List FormFieldNode), mergeRangeSlidersList cs = .ok cs1 →
      (fieldSeqList pred cs1).Sublist (fieldSeqList pred cs)
  | [], cs1, h => by
    cases h
    exact List.Sublist.refl _
  | c :: rest, cs1, h => by
    rw [mergeRangeSlidersList] at h
    cases hc : mergeRangeSliders c with
    | error e => rw [hc] at h; cases h
    | ok c1 =>
      rw [hc] at h
      have h2 : (match mergeRangeSlidersList rest with
          | Except.error e => Except.error e
          | Except.ok rest1 => Except.ok (c1 :: rest1)) = Except.ok cs1 := h
      cases hrest : mergeRangeSlidersList rest with
      | error e => rw [hrest] at h2; cases h2
      | ok rest1 =>
        rw [hrest] at h2
        cases h2
        rw [fieldSeqList, fieldSeqList]
        exact List.Sublist.append (fieldSeq_merge_sublist pred hRS c c1 hc)
          (fieldSeqList_merge_sublist pred hRS rest rest1 hrest)

end

/-- Removing consumed subgroup children preserves the field sequence when
every consumed entry of the subgroup is a slider the predicate rejects. -/
theorem fieldSeq_removeConsumedSub_eq (pred : FormField → Bool)
    (hRS : ∀ r, pred (FormField.rangeSlider r) = false)
    (i : Nat) (consumed : List ScopePos) :
    ∀ (gcs : List FormFieldNode) (j0 : Nat),
      (hb : ∀ e ∈ subSliders i j0 gcs, e.1 ∈ consumed →
        pred (FormField.temporaryRangeSlider e.2) = false) →
      (hc : ∀ j, j0 ≤ j → ((i, some j) : ScopePos) ∈ consumed →
        ∃ e, e ∈ subSliders i j0 gcs ∧ e.1 = ((i, some j) : ScopePos)) →
      fieldSeqList pred (removeConsumedSub i consumed j0 gcs) = fieldSeqList pred gcs := by
  intro gcs
  induction gcs with
  | nil => intro j0 hb hc; rfl
  | cons d rest ih =>
    intro j0 hb hc
    have hbtail : ∀ e ∈ subSliders i (j0 + 1) rest, e.1 ∈ consumed →
        pred (FormField.temporaryRangeSlider e.2) = false := fun e he =>
      hb e (by rw [subSliders, List.mem_append]; exact Or.inr he)
    have hctail : ∀ j, j0 + 1 ≤ j → ((i, some j) : ScopePos) ∈ consumed →
        ∃ e, e ∈ subSliders i (j0 + 1) rest ∧ e.1 = ((i, some j) : ScopePos) := by
      intro j hj hmem
      obtain ⟨e, he, hepos⟩ := hc j (by omega) hmem
      rw [subSliders, List.mem_append] at he
      rcases he with he | he
      · exfalso
        have hsome : e.1.2 = some j0 := by
          cases d with
          | field f =>
            cases f with
            | temporaryRangeSlider p =>
              rw [subEntryOfChild, List.mem_singleton] at he
              subst he
              rfl
            | rangeSlider r => cases he
            | other ft ti => cases he
          | group seg gcs2 => cases he
        rw [hepos] at hsome
        cases hsome
        omega
      · exact ⟨e, he, hepos⟩
    rw [removeConsumedSub, fieldSeqList]
    cases hmem : decide (((i, some j0) : ScopePos) ∈ consumed) with
    | true =>
      have hmem' := of_decide_eq_true hmem
      rw [if_pos hmem', List.nil_append, ih (j0 + 1) hbtail hctail]
      have hdnil : fieldSeqNode pred d = [] := by
        cases d with
        | field f =>
          cases f with
          | temporaryRangeSlider p =>
            have hin : ((((i, some j0) : ScopePos), p) : ScopeEntry) ∈
                subSliders i j0 (FormFieldNode.field (FormField.temporaryRangeSlider p) :: rest) := by
              rw [subSliders, List.mem_append]
              exact Or.inl (List.mem_singleton.mpr rfl)
            have := hb _ hin hmem'
            rw [fieldSeqNode, if_neg]
            rw [this]
            exact Bool.false_ne_true
          | rangeSlider r =>
            rw [fieldSeqNode, if_neg]
            rw [hRS r]
            exact Bool.false_ne_true
          | other ft ti =>
            exfalso
            obtain ⟨e, he, hepos⟩ := hc j0 (Nat.le_refl _) hmem'
            rw [subSliders, List.mem_append] at he
            rcases he with he | he
            · cases he
            · obtain ⟨_, j2, hj2, hj2le⟩ := subSliders_range i (j0 + 1) rest e he
              rw [hepos] at hj2
              cases hj2
              omega
        | group seg gcs2 =>
          exfalso
          obtain ⟨e, he, hepos⟩ := hc j0 (Nat.le_refl _) hmem'
          rw [subSliders, List.mem_append] at he
          rcases he with he | he
          · cases he
          · obtain ⟨_, j2, hj2, hj2le⟩ := subSliders_range i (j0 + 1) rest e he
            rw [hepos] at hj2
            cases hj2
            omega
      rw [hdnil, List.nil_append]
    | false =>
      rw [if_neg (of_decide_eq_false hmem), List.singleton_append, fieldSeqList,
        ih (j0 + 1) hbtail hctail]

/-- The children rewrite preserves the field sequence when every consumed
scope entry is rejected by the predicate and every consumed position in
range is backed by a scope entry. -/
theorem fieldSeq_rebuildAux_eq (pred : FormField → Bool)
    (hRS : ∀ r, pred (FormField.rangeSlider r) = false)
    (consumed : List ScopePos) (merged : List (ScopePos × RangeSlider)) :
    ∀ (cs : List FormFieldNode) (i : Nat),
      (hb : ∀ e ∈ scopeSlidersAux i cs, e.1 ∈ consumed →
        pred (FormField.temporaryRangeSlider e.2) = false) →
      (hc : ∀ pos : ScopePos, i ≤ pos.1 → pos ∈ consumed →
        ∃ e, e ∈ scopeSlidersAux i cs ∧ e.1 = pos) →
      fieldSeqList pred (rebuildAux consumed merged i cs) = fieldSeqList pred cs := by
  intro cs
  induction cs with
  | nil => intro i hb hc; rfl
  | cons c rest ih =>
    intro i hb hc
    have hbtail : ∀ e ∈ scopeSlidersAux (i + 1) rest, e.1 ∈ consumed →
        pred (FormField.temporaryRangeSlider e.2) = false := fun e he =>
      hb e (by rw [scopeSlidersAux, List.mem_append]; exact Or.inr he)
    have hctail : ∀ pos : ScopePos, i + 1 ≤ pos.1 → pos ∈ consumed →
        ∃ e, e ∈ scopeSlidersAux (i + 1) rest ∧ e.1 = pos := by
      intro pos hpos hmem
      obtain ⟨e, he, hepos⟩ := hc pos (by omega) hmem
      rw [scopeSlidersAux, List.mem_append] at he
      rcases he with he | he
      · have := scopeEntriesOfChild_range i c e he
        rw [hepos] at this
        omega
      · exact ⟨e, he, hepos⟩
    rw [rebuildAux, fieldSeqList_append, ih (i + 1) hbtail hctail, fieldSeqList]
    congr 1
    cases c with
    | field f =>
      cases f with
      | temporaryRangeSlider p =>
        rw [rebuildChild]
        cases hmem : decide (((i, none) : ScopePos) ∈ consumed) with
        | true =>
          have hmem' := of_decide_eq_true hmem
          rw [if_pos hmem', fieldSeqList_map_merged pred hRS, fieldSeqNode, if_neg]
          have hin : ((((i, none) : ScopePos), p) : ScopeEntry) ∈
              scopeSlidersAux i (FormFieldNode.field (FormField.temporaryRangeSlider p) :: rest) := by
            rw [scopeSlidersAux, List.mem_append]
            exact Or.inl (List.mem_singleton.mpr rfl)
          rw [hb _ hin hmem']
          exact Bool.false_ne_true
        | false =>
          rw [if_neg (of_decide_eq_false hmem), fieldSeqList_singleton]
      | rangeSlider r => rw [rebuildChild, fieldSeqList_singleton]
      | other ft ti => rw [rebuildChild, fieldSeqList_singleton]
    | group seg gcs =>
      have hbsub : ∀ e ∈ subSliders i 0 gcs, e.1 ∈ consumed →
          pred (FormField.temporaryRangeSlider e.2) = false := fun e he =>
        hb e (by
          rw [scopeSlidersAux, List.mem_append]
          exact Or.inl he)
      have hcsub : ∀ j, 0 ≤ j → ((i, some j) : ScopePos) ∈ consumed →
          ∃ e, e ∈ subSliders i 0 gcs ∧ e.1 = ((i, some j) : ScopePos) := by
        intro j _ hmem
        obtain ⟨e, he, hepos⟩ := hc (i, some j) (Nat.le_refl _) hmem
        rw [scopeSlidersAux, List.mem_append] at he
        rcases he with he | he
        · exact ⟨e, he, hepos⟩
        · have := scopeSlidersAux_range rest (i + 1) e he
          rw [hepos] at this
          dsimp only at this
          omega
      have hsub := fieldSeq_removeConsumedSub_eq pred hRS i consumed gcs 0 hbsub hcsub
      rw [rebuildChild, fieldSeqList_append, fieldSeqList_map_merged pred hRS,
        List.nil_append]
      cases hpr : (!gcs.isEmpty && (removeConsumedSub i consumed 0 gcs).isEmpty) with
      | true =>
        rw [if_pos (show (true = true) from rfl)]
        have hrem : (removeConsumedSub i consumed 0 gcs).isEmpty = true := by
          rcases Bool.and_eq_true .. |>.mp hpr with ⟨_, h2⟩
          exact h2
        rw [fieldSeqNode, ← hsub, List.isEmpty_iff.mp hrem]
      | false =>
        rw [if_neg Bool.false_ne_true, fieldSeqList_singleton, fieldSeqNode, fieldSeqNode,
          hsub]

/-- The payload selector rejects range sliders. -/
theorem payloadPred_rangeSlider (p : TemporaryRangeSliderPayload) (r : RangeSlider) :
    payloadPred p (FormField.rangeSlider r) = false := rfl

/-- The partner selector rejects range sliders. -/
theorem oppositeKeyPred_rangeSlider (p : TemporaryRangeSliderPayload) (r : RangeSlider) :
    oppositeKeyPred p (FormField.rangeSlider r) = false := rfl

/-- The `other`-field selector rejects range sliders. -/
theorem isOtherField_rangeSlider (r : RangeSlider) :
    isOtherField (FormField.rangeSlider r) = false := rfl

/-- A pairing pass preserves the sequences of partner-less sliders and of
`other` fields: every consumed scope entry belongs to a matched pair, whose
partner would witness an opposite-extremity slider. -/
theorem fieldSeq_mergeLevel_eq (p : TemporaryRangeSliderPayload)
    (cs1 cs2 : List FormFieldNode) (hml : mergeLevel cs1 = .ok cs2)
    (hno1 : fieldSeqList (oppositeKeyPred p) cs1 = []) :
    fieldSeqList (payloadPred p) cs2 = fieldSeqList (payloadPred p) cs1 ∧
    fieldSeqList isOtherField cs2 = fieldSeqList isOtherField cs1 := by
  rw [mergeLevel] at hml
  cases hba : buildAllPairs (pairsForScope (scopeSliders cs1)) with
  | error e => rw [hba] at hml; cases hml
  | ok merged =>
    rw [hba] at hml
    cases hml
    have hc : ∀ pos : ScopePos, 0 ≤ pos.1 →
        pos ∈ consumedOf (pairsForScope (scopeSliders cs1)) →
        ∃ e, e ∈ scopeSlidersAux 0 cs1 ∧ e.1 = pos := by
      intro pos _ hmem
      obtain ⟨pr, hpr, hor⟩ := consumedOf_mem _ pos hmem
      obtain ⟨h1, h2, _, _, _⟩ := pairsForScope_mem _ pr hpr
      rcases hor with hor | hor
      · exact ⟨pr.1, h1, hor.symm⟩
      · exact ⟨pr.2, h2, hor.symm⟩
    have hbkeep : ∀ e ∈ scopeSlidersAux 0 cs1,
        e.1 ∈ consumedOf (pairsForScope (scopeSliders cs1)) →
        payloadPred p (FormField.temporaryRangeSlider e.2) = false := by
      intro e he hmem
      cases hkeep : payloadPred p (FormField.temporaryRangeSlider e.2) with
      | false => rfl
      | true =>
        exfalso
        have hep : e.2 = p := by
          rw [payloadPred, decide_eq_true_eq] at hkeep
          exact hkeep
        obtain ⟨pr, hpr, hor⟩ := consumedOf_mem _ e.1 hmem
        obtain ⟨h1, h2, hdown, hup, hrid⟩ := pairsForScope_mem _ pr hpr
        rcases hor with hor | hor
        · have heq : e.2 = pr.1.2 := by
            refine scopeSlidersAux_functional cs1 0 e.1 e.2 pr.1.2 he ?_
            rw [hor]
            exact h1
          have hopp : oppositeKeyPred p (FormField.temporaryRangeSlider pr.2.2) = true := by
            rw [oppositeKeyPred, decide_eq_true_eq]
            constructor
            · rw [hrid, ← heq, hep]
            · rw [hup, ← hep, heq, hdown]
              rfl
          have hin := fieldSeq_of_scope_mem (oppositeKeyPred p) cs1 0 pr.2 h2 hopp
          rw [hno1] at hin
          exact List.not_mem_nil _ hin
        · have heq : e.2 = pr.2.2 := by
            refine scopeSlidersAux_functional cs1 0 e.1 e.2 pr.2.2 he ?_
            rw [hor]
            exact h2
          have hopp : oppositeKeyPred p (FormField.temporaryRangeSlider pr.1.2) = true := by
            rw [oppositeKeyPred, decide_eq_true_eq]
            constructor
            · rw [← hrid, ← heq, hep]
            · rw [hdown, ← hep, heq, hup]
              rfl
          have hin := fieldSeq_of_scope_mem (oppositeKeyPred p) cs1 0 pr.1 h1 hopp
          rw [hno1] at hin
          exact List.not_mem_nil _ hin
    have hboth : ∀ e ∈ scopeSlidersAux 0 cs1,
        e.1 ∈ consumedOf (pairsForScope (scopeSliders cs1)) →
        isOtherField (FormField.temporaryRangeSlider e.2) = false := fun e he hmem => rfl
    constructor
    · exact fieldSeq_rebuildAux_eq (payloadPred p) (payloadPred_rangeSlider p) _ merged
        cs1 0 hbkeep hc
    · exact fieldSeq_rebuildAux_eq isOtherField isOtherField_rangeSlider _ merged
        cs1 0 hboth hc

mutual

/-- Merging preserves, in content and order, the temporary sliders that have
no opposite-extremity partner of their range id anywhere in the tree, and
the `other` field leaves. -/
theorem fieldSeq_merge_preserves (p : TemporaryRangeSliderPayload) :
    ∀ (n n' : FormFieldNode), mergeRangeSliders n = .ok n' →
      fieldSeqNode (oppositeKeyPred p) n = [] →
      fieldSeqNode (payloadPred p) n' = fieldSeqNode (payloadPred p) n ∧
      fieldSeqNode isOtherField n' = fieldSeqNode isOtherField n
  | FormFieldNode.field fl, n', h, _ => by
    rw [show mergeRangeSliders (FormFieldNode.field fl) =
      .ok (FormFieldNode.field fl) from rfl] at h
    cases h
    exact ⟨rfl, rfl⟩
  | FormFieldNode.group seg cs, n', h, hno => by
    rw [mergeRangeSliders] at h
    cases hl : mergeRangeSlidersList cs with
    | error e => rw [hl] at h; cases h
    | ok cs1 =>
      rw [hl] at h
      have h2 : (match mergeLevel cs1 with
          | Except.error e => Except.error e
          | Except.ok cs2 => Except.ok (FormFieldNode.group seg cs2)) = Except.ok n' := h
      cases hml : mergeLevel cs1 with
      | error e => rw [hml] at h2; cases h2
      | ok cs2 =>
        rw [hml] at h2
        cases h2
        have hnocs : fieldSeqList (oppositeKeyPred p) cs = [] := hno
        obtain ⟨ihkeep, ihoth⟩ := fieldSeqList_merge_preserves p cs cs1 hl hnocs
        have hno1 : fieldSeqList (oppositeKeyPred p) cs1 = [] := by
          have hsub := fieldSeqList_merge_sublist (oppositeKeyPred p)
            (oppositeKeyPred_rangeSlider p) cs cs1 hl
          rw [hnocs] at hsub
          exact List.sublist_nil.mp hsub
        obtain ⟨hkeep2, hoth2⟩ := fieldSeq_mergeLevel_eq p cs1 cs2 hml hno1
        constructor
        · rw [fieldSeqNode, fieldSeqNode, hkeep2, ihkeep]
        · rw [fieldSeqNode, fieldSeqNode, hoth2, ihoth]

/-- List version of `fieldSeq_merge_preserves`. -/
theorem fieldSeqList_merge_preserves (p : TemporaryRangeSliderPayload) :
    ∀ (cs cs1 : List FormFieldNode), mergeRangeSlidersList cs = .ok cs1 →
      fieldSeqList (oppositeKeyPred p) cs = [] →
      fieldSeqList (payloadPred p) cs1 = fieldSeqList (payloadPred p) cs ∧
      fieldSeqList isOtherField cs1 = fieldSeqList isOtherField cs
  | [], cs1, h, _ => by
    cases h
    exact ⟨rfl, rfl⟩
  | c :: rest, cs1, h, hno => by
    rw [mergeRangeSlidersList] at h
    cases hc : mergeRangeSliders c with
    | error e => rw [hc] at h; cases h
    | ok c1 =>
      rw [hc] at h
      have h2 : (match mergeRangeSlidersList rest with
          | Except.error e => Except.error e
          | Except.ok rest1 => Except.ok (c1 :: rest1)) = Except.ok cs1 := h
      cases hrest : mergeRangeSlidersList rest with
      | error e => rw [hrest] at h2; cases h2
      | ok rest1 =>
        rw [hrest] at h2
        cases h2
        rw [fieldSeqList] at hno
        obtain ⟨hno1, hno2⟩ := List.append_eq_nil.mp hno
        obtain ⟨ha1, ha2⟩ := fieldSeq_merge_preserves p c c1 hc hno1
        obtain ⟨hb1, hb2⟩ := fieldSeqList_merge_preserves p rest rest1 hrest hno2
        constructor
        · rw [fieldSeqList, fieldSeqList, ha1, hb1]
        · rw [fieldSeqList, fieldSeqList, ha2, hb2]

end

/-- Scope of a children list holding exactly two direct temporary sliders
among otherwise scope-silent children. -/
theorem scopeSliders_two (A B C : List FormFieldNode)
    (x y : TemporaryRangeSliderPayload)
    (hclean : ∀ n ∈ A ++ B ++ C, tempCountNode n = 0) :
    scopeSliders (A ++ createTemporaryRangeSlider x ::
        (B ++ createTemporaryRangeSlider y :: C)) =
      [((A.length, none), x), ((A.length + 1 + B.length, none), y)] := by
  have hA : ∀ n ∈ A, contributesNoScope n = true := fun n hn =>
    contributesNoScope_of_tempCount n
      (hclean n (List.mem_append_left C (List.mem_append_left B hn)))
  have hB : ∀ n ∈ B, contributesNoScope n = true := fun n hn =>
    contributesNoScope_of_tempCount n
      (hclean n (List.mem_append_left C (List.mem_append_right A hn)))
  have hC : ∀ n ∈ C, contributesNoScope n = true := fun n hn =>
    contributesNoScope_of_tempCount n (hclean n (List.mem_append_right (A ++ B) hn))
  rw [scopeSliders, scopeSlidersAux_append, scopeSlidersAux_eq_nil A 0 hA,
    List.nil_append, scopeSlidersAux]
  rw [show scopeEntriesOfChild (0 + A.length) (createTemporaryRangeSlider x) =
    [((A.length, none), x)] from by rw [Nat.zero_add]; rfl]
  rw [scopeSlidersAux_append, scopeSlidersAux_eq_nil B _ hB, List.nil_append,
    scopeSlidersAux]
  rw [show scopeEntriesOfChild (0 + A.length + 1 + B.length)
      (createTemporaryRangeSlider y) = [((A.length + 1 + B.length, none), y)] from by
    rw [Nat.zero_add]; rfl]
  rw [scopeSlidersAux_eq_nil C _ hC]
  rfl

/-- A two-entry scope listing the `down` endpoint first pairs the two. -/
theorem pairsForScope_down_first (p1 p2 : ScopePos)
    (dp upp : TemporaryRangeSliderPayload)
    (hd : dp.sliderExtremity = .down) (hu : upp.sliderExtremity = .up)
    (hid : upp.sliderRangeId = dp.sliderRangeId) :
    pairsForScope [(p1, dp), (p2, upp)] = [((p1, dp), (p2, upp))] := by
  simp [pairsForScope, firstOccurIds, scopeFind, List.find?, hd, hu, hid]

/-- A two-entry scope listing the `up` endpoint first pairs the two, the
`down` endpoint still standing first in the pair. -/
theorem pairsForScope_up_first (p1 p2 : ScopePos)
    (dp upp : TemporaryRangeSliderPayload)
    (hd : dp.sliderExtremity = .down) (hu : upp.sliderExtremity = .up)
    (hid : upp.sliderRangeId = dp.sliderRangeId) :
    pairsForScope [(p1, upp), (p2, dp)] = [((p2, dp), (p1, upp))] := by
  simp [pairsForScope, firstOccurIds, scopeFind, List.find?, hd, hu, hid]

/-- Rewriting a children list whose two consumed positions are the two
direct sliders replaces the earlier one by the merged field and drops the
later one, leaving everything else in place. -/
theorem rebuild_two_consumed (consumed : List ScopePos)
    (A B C : List FormFieldNode) (x y : TemporaryRangeSliderPayload) (f : RangeSlider)
    (hmemx : ((A.length, none) : ScopePos) ∈ consumed)
    (hmemy : ((A.length + 1 + B.length, none) : ScopePos) ∈ consumed)
    (hsub : ∀ pos ∈ consumed,
      pos = ((A.length, none) : ScopePos) ∨ pos = ((A.length + 1 + B.length, none) : ScopePos)) :
    rebuildAux consumed [((A.length, none), f)] 0
        (A ++ createTemporaryRangeSlider x :: (B ++ createTemporaryRangeSlider y :: C)) =
      A ++ FormFieldNode.field (FormField.rangeSlider f) :: (B ++ C) := by
  have hidA : rebuildAux consumed [((A.length, none), f)] 0 A = A := by
    refine rebuildAux_id _ _ A 0 (fun pos hpos => ?_) (fun mm hmm => ?_)
    · rcases hsub pos hpos with h | h <;> subst h <;> dsimp only <;> omega
    · rw [List.mem_singleton] at hmm
      subst hmm
      dsimp only
      omega
  have hidB : rebuildAux consumed [((A.length, none), f)] (A.length + 1) B = B := by
    refine rebuildAux_id _ _ B (A.length + 1) (fun pos hpos => ?_) (fun mm hmm => ?_)
    · rcases hsub pos hpos with h | h <;> subst h <;> dsimp only <;> omega
    · rw [List.mem_singleton] at hmm
      subst hmm
      dsimp only
      omega
  have hidC : rebuildAux consumed [((A.length, none), f)] (A.length + 1 + B.length + 1) C = C := by
    refine rebuildAux_id _ _ C (A.length + 1 + B.length + 1)
      (fun pos hpos => ?_) (fun mm hmm => ?_)
    · rcases hsub pos hpos with h | h <;> subst h <;> dsimp only <;> omega
    · rw [List.mem_singleton] at hmm
      subst hmm
      dsimp only
      omega
  have hx : rebuildChild consumed [((A.length, none), f)] A.length
      (createTemporaryRangeSlider x) = [FormFieldNode.field (FormField.rangeSlider f)] := by
    rw [createTemporaryRangeSlider, rebuildChild, if_pos hmemx]
    simp [List.filter]
  have hy : rebuildChild consumed [((A.length, none), f)] (A.length + 1 + B.length)
      (createTemporaryRangeSlider y) = [] := by
    rw [createTemporaryRangeSlider, rebuildChild, if_pos hmemy]
    have : (((A.length, none) : ScopePos) = ((A.length + 1 + B.length, none) : ScopePos)) =
        False := by
      simp only [Prod.mk.injEq, eq_self_iff_true, and_true, eq_iff_iff, iff_false]
      intro h
      omega
    simp [List.filter, this]
  rw [rebuildAux_append, hidA, Nat.zero_add, rebuildAux, hx, rebuildAux_append, hidB,
    rebuildAux, hy]
  rw [show A.length + 1 + B.length + 1 = A.length + 1 + B.length + 1 from rfl]
  rw [hidC]
  simp

/-- A `down`/`up` sibling pair with a common range id pairs, and the pairing
pass replaces the two sliders by the merged field — or raises the error of
`buildMergedRangeSlider`. -/
theorem mergeLevel_pair (dp upp : TemporaryRangeSliderPayload)
    (hd : dp.sliderExtremity = .down) (hu : upp.sliderExtremity = .up)
    (hid : upp.sliderRangeId = dp.sliderRangeId) :
    mergeLevel [createTemporaryRangeSlider dp, createTemporaryRangeSlider upp] =
      match buildMergedRangeSlider dp upp with
      | .error e => .error e
      | .ok f => .ok [FormFieldNode.field (FormField.rangeSlider f)] := by
  have hS : scopeSliders [createTemporaryRangeSlider dp, createTemporaryRangeSlider upp] =
      [((0, none), dp), ((1, none), upp)] := rfl
  have hpairs : pairsForScope [((0, none), dp), ((1, none), upp)] =
      [(((0, none), dp), ((1, none), upp))] := by
    simp [pairsForScope, firstOccurIds, scopeFind, List.find?, hd, hu, hid]
  rw [mergeLevel, hS, hpairs]
  cases hb : buildMergedRangeSlider dp upp with
  | error e => simp [buildAllPairs, hb]
  | ok f =>
      simp [buildAllPairs, hb, consumedOf, rebuildChildren, rebuildAux, rebuildChild,
        createTemporaryRangeSlider, anchorPos, List.filter]

/-- Merging a group holding exactly a `down`/`up` sibling pair with a common
range id yields the group holding the one merged field — or raises the error
of `buildMergedRangeSlider`. -/
theorem mergeRangeSliders_pair (seg : String) (dp upp : TemporaryRangeSliderPayload)
    (hd : dp.sliderExtremity = .down) (hu : upp.sliderExtremity = .up)
    (hid : upp.sliderRangeId = dp.sliderRangeId) :
    mergeRangeSliders (FormFieldNode.group seg
        [createTemporaryRangeSlider dp, createTemporaryRangeSlider upp]) =
      match buildMergedRangeSlider dp upp with
      | .error e => .error e
      | .ok f => .ok (FormFieldNode.group seg [FormFieldNode.field (FormField.rangeSlider f)]) := by
  have hlist : mergeRangeSlidersList
      [createTemporaryRangeSlider dp, createTemporaryRangeSlider upp] =
      .ok [createTemporaryRangeSlider dp, createTemporaryRangeSlider upp] := rfl
  have hm := mergeLevel_pair dp upp hd hu hid
  cases hb : buildMergedRangeSlider dp upp with
  | error e =>
      rw [hb] at hm
      simp only [mergeRangeSliders, hlist, hm]
  | ok f =>
      rw [hb] at hm
      simp only [mergeRangeSliders, hlist, hm]

/-- Strings append componentwise on their character data. -/
theorem string_data_append (p u : String) : (p ++ u).data = p.data ++ u.data := by
  cases p
  cases u
  rfl

/-- C1: the base fixture merges into one `resources` child, a range slider
titled CPU with low end 150 and high end 30000; the two-slider fixture yields
the CPU and memory merged fields as siblings, in original insertion order. -/
theorem mergeRangeSliders_fixture_scenarios :
    mergeRangeSliders baseCaseInput = .ok baseCaseExpected ∧
    mergeRangeSliders twoSlidersInput = .ok twoSlidersExpected ∧
    cpuMergedBase.title = "CPU" ∧
    cpuMergedBase.lowEndRange.value = 150 ∧
    cpuMergedBase.highEndRange.value = 30000 ∧
    cpuMergedTwo.title = "CPU" ∧
    memMerged.title = "memory" :=
  ⟨rfl, rfl, rfl, rfl, rfl, rfl, rfl⟩

/-- C2 counterexample: in the base fixture the two cpu temporary sliders
share a `sliderRangeId` but live in different groups (`requests` and
`limits`), yet `mergeRangeSliders` merges them with each other: no temporary
slider remains and the merged field's two ends carry the two sliders' paths. -/
theorem mergeRangeSliders_merges_across_sibling_subgroups :
    cpuDownPayload.sliderRangeId = cpuUpBasePayload.sliderRangeId ∧
    baseCaseInput = FormFieldNode.group "root" [FormFieldNode.group "resources" [
      FormFieldNode.group "requests" [createTemporaryRangeSlider cpuDownPayload],
      FormFieldNode.group "limits" [createTemporaryRangeSlider cpuUpBasePayload]]] ∧
    mergeRangeSliders baseCaseInput = .ok baseCaseExpected ∧
    tempCountNode baseCaseInput = 2 ∧
    tempCountNode baseCaseExpected = 0 ∧
    cpuMergedBase.lowEndRange.helmValuesPath = cpuDownPayload.helmValuesPath ∧
    cpuMergedBase.highEndRange.helmValuesPath = cpuUpBasePayload.helmValuesPath :=
  ⟨rfl, rfl, rfl, rfl, rfl, rfl, rfl⟩

/-- C3 counterexample: `mixedPairGroup` holds exactly one `down` and one `up`
temporary slider sharing a range id among its direct children, yet its
children count drops by two under `mergeRangeSliders` (the cpu pair sitting
in its subgroups is merged and the emptied subgroups are pruned as well). -/
theorem mergeRangeSliders_children_count_can_drop_by_two :
    directSliderKeys mixedPairChildren = [("memory", .down), ("memory", .up)] ∧
    mergeRangeSliders mixedPairGroup = .ok mixedPairGroupMerged ∧
    childCount mixedPairGroup = 4 ∧
    childCount mixedPairGroupMerged = 2 ∧
    ¬ childCount mixedPairGroup = childCount mixedPairGroupMerged + 1 :=
  ⟨rfl, rfl, rfl, rfl, by decide⟩

/-- C4: a merged field's `lowEndRange` is built from the `down` endpoint
(readonly flag, path, parsed value, semantic, min, max, description),
`highEndRange` symmetrically from the `up` endpoint, and `unit`/`step` come
from the `down` endpoint. -/
theorem buildMergedRangeSlider_field_mapping
    (dp upp : TemporaryRangeSliderPayload) (f : RangeSlider)
    (h : buildMergedRangeSlider dp upp = .ok f) :
    f.lowEndRange.isReadonly = dp.isReadonly ∧
    f.lowEndRange.helmValuesPath = dp.helmValuesPath ∧
    parseNumericValue dp.helmValue dp.sliderUnit = some f.lowEndRange.value ∧
    f.lowEndRange.rangeEndSemantic = dp.sliderExtremitySemantic ∧
    f.lowEndRange.min = dp.sliderMin ∧
    f.lowEndRange.max = dp.sliderMax ∧
    f.lowEndRange.description = dp.description ∧
    f.highEndRange.isReadonly = upp.isReadonly ∧
    f.highEndRange.helmValuesPath = upp.helmValuesPath ∧
    parseNumericValue upp.helmValue upp.sliderUnit = some f.highEndRange.value ∧
    f.highEndRange.rangeEndSemantic = upp.sliderExtremitySemantic ∧
    f.highEndRange.min = upp.sliderMin ∧
    f.highEndRange.max = upp.sliderMax ∧
    f.highEndRange.description = upp.description ∧
    f.unit = dp.sliderUnit ∧
    f.step = dp.sliderStep := by
  unfold buildMergedRangeSlider at h
  split at h
  · cases h
  · split at h
    · cases h
    · split at h
      · cases h
      · cases h
        refine ⟨rfl, rfl, ?_, rfl, rfl, rfl, rfl, rfl, rfl, ?_, rfl, rfl, rfl, rfl,
          rfl, rfl⟩ <;> assumption

/-- Witness for the field-mapping theorem at the base fixture's cpu pair. -/
theorem buildMergedRangeSlider_field_mapping_witness :
    cpuMergedBase.lowEndRange.isReadonly = cpuDownPayload.isReadonly ∧
    cpuMergedBase.lowEndRange.helmValuesPath = cpuDownPayload.helmValuesPath ∧
    parseNumericValue cpuDownPayload.helmValue cpuDownPayload.sliderUnit =
      some cpuMergedBase.lowEndRange.value ∧
    cpuMergedBase.lowEndRange.rangeEndSemantic = cpuDownPayload.sliderExtremitySemantic ∧
    cpuMergedBase.lowEndRange.min = cpuDownPayload.sliderMin ∧
    cpuMergedBase.lowEndRange.max = cpuDownPayload.sliderMax ∧
    cpuMergedBase.lowEndRange.description = cpuDownPayload.description ∧
    cpuMergedBase.highEndRange.isReadonly = cpuUpBasePayload.isReadonly ∧
    cpuMergedBase.highEndRange.helmValuesPath = cpuUpBasePayload.helmValuesPath ∧
    parseNumericValue cpuUpBasePayload.helmValue cpuUpBasePayload.sliderUnit =
      some cpuMergedBase.highEndRange.value ∧
    cpuMergedBase.highEndRange.rangeEndSemantic = cpuUpBasePayload.sliderExtremitySemantic ∧
    cpuMergedBase.highEndRange.min = cpuUpBasePayload.sliderMin ∧
    cpuMergedBase.highEndRange.max = cpuUpBasePayload.sliderMax ∧
    cpuMergedBase.highEndRange.description = cpuUpBasePayload.description ∧
    cpuMergedBase.unit = cpuDownPayload.sliderUnit ∧
    cpuMergedBase.step = cpuDownPayload.sliderStep :=
  buildMergedRangeSlider_field_mapping cpuDownPayload cpuUpBasePayload cpuMergedBase rfl

/-- C5: for a raw value built as a numeric text followed by the declared
unit, the parsed value is the number read from the text before the suffix; in
particular 150m with unit m parses to 150 and 2Gi with unit Gi parses to 2. -/
theorem parseNumericValue_spec :
    (∀ pre u : String, parseNumericValue (pre ++ u) u = parseNatDigits pre.data) ∧
    parseNumericValue "150m" "m" = some 150 ∧
    parseNumericValue "2Gi" "Gi" = some 2 := by
  refine ⟨fun pre u => ?_, rfl, rfl⟩
  have hsuf : u.data.isSuffixOf ((pre ++ u).data) = true :=
    List.isSuffixOf_iff_suffix.mpr (string_data_append pre u ▸ List.suffix_append _ _)
  unfold parseNumericValue
  rw [hsuf]
  simp only [if_true]
  rw [string_data_append, List.length_append, Nat.add_sub_cancel, List.take_left]

/-- A scope holding a single slider has no matched pair: whatever the
slider's extremity, no opposite-extremity entry exists. -/
theorem pairsForScope_singleton (pos : ScopePos) (p : TemporaryRangeSliderPayload) :
    pairsForScope [(pos, p)] = [] := by
  cases hext : p.sliderExtremity with
  | down => simp [pairsForScope, firstOccurIds, scopeFind, List.find?, hext]
  | up => simp [pairsForScope, firstOccurIds, scopeFind, List.find?, hext]

/-- The pairing pass leaves a lone direct slider untouched. -/
theorem mergeLevel_single_slider (p : TemporaryRangeSliderPayload) :
    mergeLevel [createTemporaryRangeSlider p] = .ok [createTemporaryRangeSlider p] := by
  have hS : scopeSliders [createTemporaryRangeSlider p] = [((0, none), p)] := rfl
  rw [mergeLevel, hS, pairsForScope_singleton]
  simp [buildAllPairs, consumedOf, rebuildChildren, rebuildAux, rebuildChild,
    createTemporaryRangeSlider]

/-- Merging a group holding one subgroup holding one temporary slider leaves
the tree unchanged: the lone slider has no partner in any pairing scope. -/
theorem mergeRangeSliders_deep_single (sa sa2 : String) (p : TemporaryRangeSliderPayload) :
    mergeRangeSliders (FormFieldNode.group sa
        [FormFieldNode.group sa2 [createTemporaryRangeSlider p]]) =
      .ok (FormFieldNode.group sa
        [FormFieldNode.group sa2 [createTemporaryRangeSlider p]]) := by
  have h1 : mergeRangeSliders (FormFieldNode.group sa2 [createTemporaryRangeSlider p]) =
      .ok (FormFieldNode.group sa2 [createTemporaryRangeSlider p]) := by
    have hfld : mergeRangeSlidersList [createTemporaryRangeSlider p] =
        .ok [createTemporaryRangeSlider p] := rfl
    simp only [mergeRangeSliders, hfld, mergeLevel_single_slider]
  have hl : mergeRangeSlidersList [FormFieldNode.group sa2 [createTemporaryRangeSlider p]] =
      .ok [FormFieldNode.group sa2 [createTemporaryRangeSlider p]] := by
    simp only [mergeRangeSlidersList, h1]
  have hS : scopeSliders [FormFieldNode.group sa2 [createTemporaryRangeSlider p]] =
      [((0, some 0), p)] := rfl
  have hml : mergeLevel [FormFieldNode.group sa2 [createTemporaryRangeSlider p]] =
      .ok [FormFieldNode.group sa2 [createTemporaryRangeSlider p]] := by
    rw [mergeLevel, hS, pairsForScope_singleton]
    simp [buildAllPairs, consumedOf, rebuildChildren, rebuildAux, rebuildChild,
      removeConsumedSub, createTemporaryRangeSlider]
  simp only [mergeRangeSliders, hl, hml]

/-- C2 amended: pairing reaches only a group's direct children and the direct
children of its direct subgroups; two temporary sliders each nested two
levels below their common ancestor are never merged with each other — the
tree comes back unchanged whatever the two payloads (in particular for a
`down`/`up` pair sharing a range id). -/
theorem mergeRangeSliders_no_merge_beyond_one_level
    (sroot sa sa2 sb sb2 : String) (p q : TemporaryRangeSliderPayload) :
    mergeRangeSliders (FormFieldNode.group sroot [
      FormFieldNode.group sa [FormFieldNode.group sa2 [createTemporaryRangeSlider p]],
      FormFieldNode.group sb [FormFieldNode.group sb2 [createTemporaryRangeSlider q]]]) =
    .ok (FormFieldNode.group sroot [
      FormFieldNode.group sa [FormFieldNode.group sa2 [createTemporaryRangeSlider p]],
      FormFieldNode.group sb [FormFieldNode.group sb2 [createTemporaryRangeSlider q]]]) := by
  have hl : mergeRangeSlidersList [
      FormFieldNode.group sa [FormFieldNode.group sa2 [createTemporaryRangeSlider p]],
      FormFieldNode.group sb [FormFieldNode.group sb2 [createTemporaryRangeSlider q]]] =
      .ok [
      FormFieldNode.group sa [FormFieldNode.group sa2 [createTemporaryRangeSlider p]],
      FormFieldNode.group sb [FormFieldNode.group sb2 [createTemporaryRangeSlider q]]] := by
    simp only [mergeRangeSlidersList, mergeRangeSliders_deep_single]
  have hS : scopeSliders [
      FormFieldNode.group sa [FormFieldNode.group sa2 [createTemporaryRangeSlider p]],
      FormFieldNode.group sb [FormFieldNode.group sb2 [createTemporaryRangeSlider q]]] =
      [] := rfl
  have hml : mergeLevel [
      FormFieldNode.group sa [FormFieldNode.group sa2 [createTemporaryRangeSlider p]],
      FormFieldNode.group sb [FormFieldNode.group sb2 [createTemporaryRangeSlider q]]] =
      .ok [
      FormFieldNode.group sa [FormFieldNode.group sa2 [createTemporaryRangeSlider p]],
      FormFieldNode.group sb [FormFieldNode.group sb2 [createTemporaryRangeSlider q]]] := by
    rw [mergeLevel, hS]
    simp [pairsForScope, firstOccurIds, buildAllPairs, consumedOf, rebuildChildren,
      rebuildAux, rebuildChild, removeConsumedSub]
  simp only [mergeRangeSliders, hl, hml]

/-- C3 amended: for a group whose direct children hold exactly one `down`
and one `up` temporary slider sharing a range id, and whose remaining
children carry no temporary sliders at all, the merge replaces the pair by
one merged range-slider field at the position of the earlier endpoint, drops
the later endpoint, and leaves every other child in place — the children
count thus decreasing by exactly one. -/
theorem mergeRangeSliders_sibling_pair_replaced_in_place
    (seg : String) (A B C : List FormFieldNode)
    (dp upp : TemporaryRangeSliderPayload) (f : RangeSlider) (firstIsDown : Bool)
    (hd : dp.sliderExtremity = .down) (hu : upp.sliderExtremity = .up)
    (hid : upp.sliderRangeId = dp.sliderRangeId)
    (hclean : ∀ n ∈ A ++ B ++ C, tempCountNode n = 0)
    (hb : buildMergedRangeSlider dp upp = .ok f) :
    mergeRangeSliders (FormFieldNode.group seg
      (A ++ createTemporaryRangeSlider (if firstIsDown then dp else upp) ::
        (B ++ createTemporaryRangeSlider (if firstIsDown then upp else dp) :: C))) =
    .ok (FormFieldNode.group seg
      (A ++ FormFieldNode.field (FormField.rangeSlider f) :: (B ++ C))) := by
  have hmembers : ∀ (x y : TemporaryRangeSliderPayload),
      ∀ n ∈ A ++ createTemporaryRangeSlider x :: (B ++ createTemporaryRangeSlider y :: C),
        mergeRangeSliders n = .ok n := by
    intro x y n hn
    rcases List.mem_append.mp hn with hn | hn
    · exact mergeRangeSliders_id_of_no_temp n
        (hclean n (List.mem_append_left C (List.mem_append_left B hn)))
    · rcases List.mem_cons.mp hn with hn | hn
      · subst hn; exact mergeRangeSliders_field _
      · rcases List.mem_append.mp hn with hn | hn
        · exact mergeRangeSliders_id_of_no_temp n
            (hclean n (List.mem_append_left C (List.mem_append_right A hn)))
        · rcases List.mem_cons.mp hn with hn | hn
          · subst hn; exact mergeRangeSliders_field _
          · exact mergeRangeSliders_id_of_no_temp n
              (hclean n (List.mem_append_right (A ++ B) hn))
  cases firstIsDown with
  | true =>
    simp only [eq_self_iff_true, if_true]
    have hlist := mergeRangeSlidersList_id_of_each _ (hmembers dp upp)
    have hS := scopeSliders_two A B C dp upp hclean
    have hpairs := pairsForScope_down_first
      ((A.length, none) : ScopePos) ((A.length + 1 + B.length, none) : ScopePos)
      dp upp hd hu hid
    have hanchor : anchorPos ((A.length, none) : ScopePos)
        ((A.length + 1 + B.length, none) : ScopePos) = (A.length, none) := by
      rw [anchorPos, if_pos (by dsimp only; omega)]
    have hba : buildAllPairs [(((A.length, none), dp), ((A.length + 1 + B.length, none), upp))] =
        .ok [((A.length, none), f)] := by
      rw [buildAllPairs, hb, buildAllPairs, hanchor]
    have hco : consumedOf [(((A.length, none), dp), ((A.length + 1 + B.length, none), upp))] =
        [((A.length, none) : ScopePos), ((A.length + 1 + B.length, none) : ScopePos)] := rfl
    have hrb : rebuildChildren
        (A ++ createTemporaryRangeSlider dp :: (B ++ createTemporaryRangeSlider upp :: C))
        [((A.length, none) : ScopePos), ((A.length + 1 + B.length, none) : ScopePos)]
        [((A.length, none), f)] =
        A ++ FormFieldNode.field (FormField.rangeSlider f) :: (B ++ C) :=
      rebuild_two_consumed _ A B C dp upp f
        (List.mem_cons_self _ _) (List.mem_cons_of_mem _ (List.mem_cons_self _ _))
        (fun pos hpos => by
          rcases List.mem_cons.mp hpos with h | h
          · exact Or.inl h
          · rcases List.mem_cons.mp h with h | h
            · exact Or.inr h
            · cases h)
    have hml : mergeLevel
        (A ++ createTemporaryRangeSlider dp :: (B ++ createTemporaryRangeSlider upp :: C)) =
        .ok (A ++ FormFieldNode.field (FormField.rangeSlider f) :: (B ++ C)) := by
      simp only [mergeLevel, hS, hpairs, hba, hco, hrb]
    simp only [mergeRangeSliders, hlist, hml]
  | false =>
    simp only [Bool.false_eq_true, if_false]
    have hlist := mergeRangeSlidersList_id_of_each _ (hmembers upp dp)
    have hS := scopeSliders_two A B C upp dp hclean
    have hpairs := pairsForScope_up_first
      ((A.length, none) : ScopePos) ((A.length + 1 + B.length, none) : ScopePos)
      dp upp hd hu hid
    have hanchor : anchorPos ((A.length + 1 + B.length, none) : ScopePos)
        ((A.length, none) : ScopePos) = (A.length, none) := by
      rw [anchorPos, if_neg (by dsimp only; omega), if_pos (by dsimp only; omega)]
    have hba : buildAllPairs [(((A.length + 1 + B.length, none), dp), ((A.length, none), upp))] =
        .ok [((A.length, none), f)] := by
      rw [buildAllPairs, hb, buildAllPairs, hanchor]
    have hco : consumedOf [(((A.length + 1 + B.length, none), dp), ((A.length, none), upp))] =
        [((A.length + 1 + B.length, none) : ScopePos), ((A.length, none) : ScopePos)] := rfl
    have hrb : rebuildChildren
        (A ++ createTemporaryRangeSlider upp :: (B ++ createTemporaryRangeSlider dp :: C))
        [((A.length + 1 + B.length, none) : ScopePos), ((A.length, none) : ScopePos)]
        [((A.length, none), f)] =
        A ++ FormFieldNode.field (FormField.rangeSlider f) :: (B ++ C) :=
      rebuild_two_consumed _ A B C upp dp f
        (List.mem_cons_of_mem _ (List.mem_cons_self _ _)) (List.mem_cons_self _ _)
        (fun pos hpos => by
          rcases List.mem_cons.mp hpos with h | h
          · exact Or.inr h
          · rcases List.mem_cons.mp h with h | h
            · exact Or.inl h
            · cases h)
    have hml : mergeLevel
        (A ++ createTemporaryRangeSlider upp :: (B ++ createTemporaryRangeSlider dp :: C)) =
        .ok (A ++ FormFieldNode.field (FormField.rangeSlider f) :: (B ++ C)) := by
      simp only [mergeLevel, hS, hpairs, hba, hco, hrb]
    simp only [mergeRangeSliders, hlist, hml]

/-- Witness for the in-place pair replacement: an `other` field, the cpu
pair in `down`-first order, and a slider-free subgroup between the two. -/
theorem mergeRangeSliders_sibling_pair_replaced_in_place_witness :
    mergeRangeSliders (FormFieldNode.group "g"
      [FormFieldNode.field (FormField.other "text field" none),
       createTemporaryRangeSlider cpuDownPayload,
       FormFieldNode.group "sub" [FormFieldNode.field (FormField.other "text field" none)],
       createTemporaryRangeSlider cpuUpBasePayload]) =
    .ok (FormFieldNode.group "g"
      [FormFieldNode.field (FormField.other "text field" none),
       FormFieldNode.field (FormField.rangeSlider cpuMergedBase),
       FormFieldNode.group "sub" [FormFieldNode.field (FormField.other "text field" none)]]) :=
  mergeRangeSliders_sibling_pair_replaced_in_place "g"
    [FormFieldNode.field (FormField.other "text field" none)]
    [FormFieldNode.group "sub" [FormFieldNode.field (FormField.other "text field" none)]]
    [] cpuDownPayload cpuUpBasePayload cpuMergedBase true rfl rfl rfl
    (by decide) rfl

/-- C6 counterexample: in the base fixture the cpu `down` slider has no
opposite-extremity sibling of its range id (it is the only child of
`requests`), yet `mergeRangeSliders` does not pass it through: it is consumed
by the cross-subgroup pairing and absent from the output. -/
theorem mergeRangeSliders_consumes_partnerless_sibling_slider :
    directSliderKeys [createTemporaryRangeSlider cpuDownPayload] = [("cpu", .down)] ∧
    mergeRangeSliders baseCaseInput = .ok baseCaseExpected ∧
    fieldSeqNode (payloadPred cpuDownPayload) baseCaseInput =
      [FormField.temporaryRangeSlider cpuDownPayload] ∧
    fieldSeqNode (payloadPred cpuDownPayload) baseCaseExpected = [] :=
  ⟨rfl, rfl, rfl, rfl⟩

/-- C6 amended: every temporary slider with no opposite-extremity slider of
its range id anywhere in the tree passes through `mergeRangeSliders`
unchanged in content and order (its left-to-right sequence of occurrences is
preserved), and the `other` field leaves pass through unchanged in content
and order likewise. -/
theorem mergeRangeSliders_preserves_unpairable_sliders_and_other_fields
    (t t' : FormFieldNode) (p : TemporaryRangeSliderPayload)
    (hok : mergeRangeSliders t = .ok t')
    (hno : fieldSeqNode (oppositeKeyPred p) t = []) :
    fieldSeqNode (payloadPred p) t' = fieldSeqNode (payloadPred p) t ∧
    fieldSeqNode isOtherField t' = fieldSeqNode isOtherField t :=
  fieldSeq_merge_preserves p t t' hok hno

/-- Witness for the passthrough theorem: a flat group holding a partner-less
memory slider, the cpu pair, and an `other` field; the merge fuses the cpu
pair and leaves the rest. -/
theorem mergeRangeSliders_preserves_unpairable_sliders_and_other_fields_witness :
    fieldSeqNode (payloadPred memDownPayload)
        (FormFieldNode.group "root" [
          createTemporaryRangeSlider memDownPayload,
          FormFieldNode.field (FormField.rangeSlider cpuMergedBase),
          FormFieldNode.field (FormField.other "text field" none)]) =
      fieldSeqNode (payloadPred memDownPayload)
        (FormFieldNode.group "root" [
          createTemporaryRangeSlider memDownPayload,
          createTemporaryRangeSlider cpuDownPayload,
          createTemporaryRangeSlider cpuUpBasePayload,
          FormFieldNode.field (FormField.other "text field" none)]) ∧
    fieldSeqNode isOtherField
        (FormFieldNode.group "root" [
          createTemporaryRangeSlider memDownPayload,
          FormFieldNode.field (FormField.rangeSlider cpuMergedBase),
          FormFieldNode.field (FormField.other "text field" none)]) =
      fieldSeqNode isOtherField
        (FormFieldNode.group "root" [
          createTemporaryRangeSlider memDownPayload,
          createTemporaryRangeSlider cpuDownPayload,
          createTemporaryRangeSlider cpuUpBasePayload,
          FormFieldNode.field (FormField.other "text field" none)]) :=
  mergeRangeSliders_preserves_unpairable_sliders_and_other_fields
    (FormFieldNode.group "root" [
      createTemporaryRangeSlider memDownPayload,
      createTemporaryRangeSlider cpuDownPayload,
      createTemporaryRangeSlider cpuUpBasePayload,
      FormFieldNode.field (FormField.other "text field" none)])
    (FormFieldNode.group "root" [
      createTemporaryRangeSlider memDownPayload,
      FormFieldNode.field (FormField.rangeSlider cpuMergedBase),
      FormFieldNode.field (FormField.other "text field" none)])
    memDownPayload rfl rfl

/-- C7: when either endpoint of a matched pair has a raw value that does not
end with the declared unit or whose numeric prefix is unparsable, the merge
raises an error to the caller instead of producing a merged field. -/
theorem mergeRangeSliders_errors_on_malformed_value
    (seg : String) (dp upp : TemporaryRangeSliderPayload)
    (hd : dp.sliderExtremity = .down) (hu : upp.sliderExtremity = .up)
    (hid : upp.sliderRangeId = dp.sliderRangeId)
    (hmal : parseNumericValue dp.helmValue dp.sliderUnit = none ∨
      parseNumericValue upp.helmValue upp.sliderUnit = none) :
    isError (mergeRangeSliders (FormFieldNode.group seg
      [createTemporaryRangeSlider dp, createTemporaryRangeSlider upp])) = true := by
  rw [mergeRangeSliders_pair seg dp upp hd hu hid]
  cases hb : buildMergedRangeSlider dp upp with
  | error e => rfl
  | ok f =>
    exfalso
    unfold buildMergedRangeSlider at hb
    rcases hmal with hm | hm
    · rw [hm] at hb
      split at hb
      · cases hb
      · cases hb
    · rw [hm] at hb
      split at hb
      · cases hb
      · split at hb
        · cases hb
        · cases hb

/-- Witness for the malformed-value theorem: the base fixture's cpu pair with
the raw value replaced by a string lacking the unit suffix. -/
theorem mergeRangeSliders_errors_on_malformed_value_witness :
    isError (mergeRangeSliders (FormFieldNode.group "root"
      [createTemporaryRangeSlider malformedCpuDown,
       createTemporaryRangeSlider cpuUpBasePayload])) = true :=
  mergeRangeSliders_errors_on_malformed_value "root" malformedCpuDown cpuUpBasePayload
    rfl rfl rfl (Or.inl rfl)

/-- C8: when neither endpoint of a matched pair carries a title the merge
raises `missingTitle` instead of defaulting, and when an endpoint carries a
title the merged field takes it (the `down` endpoint winning when both do). -/
theorem mergeRangeSliders_title_rules
    (seg : String) (dp upp : TemporaryRangeSliderPayload)
    (hd : dp.sliderExtremity = .down) (hu : upp.sliderExtremity = .up)
    (hid : upp.sliderRangeId = dp.sliderRangeId)
    (lv hv : Nat)
    (hpl : parseNumericValue dp.helmValue dp.sliderUnit = some lv)
    (hph : parseNumericValue upp.helmValue upp.sliderUnit = some hv) :
    (dp.title = none → upp.title = none →
      mergeRangeSliders (FormFieldNode.group seg
        [createTemporaryRangeSlider dp, createTemporaryRangeSlider upp]) =
        .error (.missingTitle dp.sliderRangeId)) ∧
    (∀ t, dp.title = some t →
      ∃ f, mergeRangeSliders (FormFieldNode.group seg
          [createTemporaryRangeSlider dp, createTemporaryRangeSlider upp]) =
        .ok (FormFieldNode.group seg [FormFieldNode.field (FormField.rangeSlider f)]) ∧
        f.title = t) ∧
    (∀ t, dp.title = none → upp.title = some t →
      ∃ f, mergeRangeSliders (FormFieldNode.group seg
          [createTemporaryRangeSlider dp, createTemporaryRangeSlider upp]) =
        .ok (FormFieldNode.group seg [FormFieldNode.field (FormField.rangeSlider f)]) ∧
        f.title = t) := by
  rw [mergeRangeSliders_pair seg dp upp hd hu hid]
  refine ⟨fun ht1 ht2 => ?_, fun t ht => ?_, fun t ht1 ht2 => ?_⟩
  · have hb : buildMergedRangeSlider dp upp = .error (.missingTitle dp.sliderRangeId) := by
      unfold buildMergedRangeSlider
      rw [ht1, ht2]
      rfl
    rw [hb]
  · have hb : buildMergedRangeSlider dp upp = .ok {
        title := t
        unit := dp.sliderUnit
        step := dp.sliderStep
        lowEndRange := {
          isReadonly := dp.isReadonly
          helmValuesPath := dp.helmValuesPath
          value := lv
          rangeEndSemantic := dp.sliderExtremitySemantic
          min := dp.sliderMin
          max := dp.sliderMax
          description := dp.description }
        highEndRange := {
          isReadonly := upp.isReadonly
          helmValuesPath := upp.helmValuesPath
          value := hv
          rangeEndSemantic := upp.sliderExtremitySemantic
          min := upp.sliderMin
          max := upp.sliderMax
          description := upp.description } } := by
      unfold buildMergedRangeSlider
      rw [ht, hpl, hph]
      rfl
    rw [hb]
    exact ⟨_, rfl, rfl⟩
  · have hb : buildMergedRangeSlider dp upp = .ok {
        title := t
        unit := dp.sliderUnit
        step := dp.sliderStep
        lowEndRange := {
          isReadonly := dp.isReadonly
          helmValuesPath := dp.helmValuesPath
          value := lv
          rangeEndSemantic := dp.sliderExtremitySemantic
          min := dp.sliderMin
          max := dp.sliderMax
          description := dp.description }
        highEndRange := {
          isReadonly := upp.isReadonly
          helmValuesPath := upp.helmValuesPath
          value := hv
          rangeEndSemantic := upp.sliderExtremitySemantic
          min := upp.sliderMin
          max := upp.sliderMax
          description := upp.description } } := by
      unfold buildMergedRangeSlider
      rw [ht1, ht2, hpl, hph]
      rfl
    rw [hb]
    exact ⟨_, rfl, rfl⟩

/-- Witness for the title rules: the cpu pair with both titles removed
raises `missingTitle`. -/
theorem mergeRangeSliders_title_rules_witness :
    mergeRangeSliders (FormFieldNode.group "root"
      [createTemporaryRangeSlider untitledCpuDown,
       createTemporaryRangeSlider cpuUpBasePayload]) =
      .error (.missingTitle "cpu") :=
  (mergeRangeSliders_title_rules "root" untitledCpuDown cpuUpBasePayload
    rfl rfl rfl 150 30000 rfl rfl).1 rfl rfl

/-- C10: merging the fixtures removes the `requests` and `limits` subgroups
emptied by the consumption of their sliders: only the `root` and `resources`
groups survive, no childless group is retained, and the merged fields sit
directly among the children of `resources`. -/
theorem mergeRangeSliders_prunes_emptied_groups :
    ∀ t1 t2 : FormFieldNode,
      mergeRangeSliders baseCaseInput = .ok t1 →
      mergeRangeSliders twoSlidersInput = .ok t2 →
      groupSegsNode t1 = ["root", "resources"] ∧
      hasEmptyGroupNode t1 = false ∧
      mergedDirectlyUnderResources t1 = true ∧
      groupSegsNode t2 = ["root", "resources"] ∧
      hasEmptyGroupNode t2 = false ∧
      mergedDirectlyUnderResources t2 = true := by
  intro t1 t2 h1 h2
  rw [show mergeRangeSliders baseCaseInput = .ok baseCaseExpected from rfl] at h1
  rw [show mergeRangeSliders twoSlidersInput = .ok twoSlidersExpected from rfl] at h2
  cases h1
  cases h2
  exact ⟨rfl, rfl, rfl, rfl, rfl, rfl⟩

/-- Witness for the pruning theorem at the two fixtures. -/
theorem mergeRangeSliders_prunes_emptied_groups_witness :
    groupSegsNode baseCaseExpected = ["root", "resources"] ∧
    hasEmptyGroupNode baseCaseExpected = false ∧
    mergedDirectlyUnderResources baseCaseExpected = true ∧
    groupSegsNode twoSlidersExpected = ["root", "resources"] ∧
    hasEmptyGroupNode twoSlidersExpected = false ∧
    mergedDirectlyUnderResources twoSlidersExpected = true :=
  mergeRangeSliders_prunes_emptied_groups baseCaseExpected twoSlidersExpected rfl rfl

/-- When every subgroup has slider-free children, the pairing scope consists
of the direct slider entries only. -/
theorem scopeSlidersAux_eq_direct :
    ∀ (cs : List FormFieldNode) (i : Nat),
      (∀ seg gcs, FormFieldNode.group seg gcs ∈ cs →
        ∀ d ∈ gcs, isTempFieldNode d = false) →
      scopeSlidersAux i cs = directScopeAux i cs := by
  intro cs
  induction cs with
  | nil => intro i h; rfl
  | cons c rest ih =>
    intro i h
    have htail := ih (i + 1) (fun seg gcs hmem => h seg gcs (List.mem_cons_of_mem c hmem))
    rw [scopeSlidersAux]
    cases c with
    | field f =>
      cases f with
      | temporaryRangeSlider p => rw [directScopeAux, htail]; rfl
      | rangeSlider r => rw [directScopeAux, htail]; rfl
      | other ft ti => rw [directScopeAux, htail]; rfl
    | group seg gcs =>
      rw [directScopeAux, htail, scopeEntriesOfChild,
        subSliders_eq_nil i 0 gcs (h seg gcs (List.mem_cons_self _ _)), List.nil_append]

/-- The keys of the direct slider entries are the direct slider keys. -/
theorem directScopeAux_keys :
    ∀ (cs : List FormFieldNode) (i : Nat),
      (directScopeAux i cs).map entryKey = directSliderKeys cs := by
  intro cs
  induction cs with
  | nil => intro i; rfl
  | cons c rest ih =>
    intro i
    cases c with
    | field f =>
      cases f with
      | temporaryRangeSlider p =>
        rw [directScopeAux, List.map_cons, ih (i + 1)]
        rfl
      | rangeSlider r => rw [directScopeAux, ih (i + 1)]; rfl
      | other ft ti => rw [directScopeAux, ih (i + 1)]; rfl
    | group seg gcs => rw [directScopeAux, ih (i + 1)]; rfl

/-- The fold collecting first occurrences never loses elements already
collected. -/
theorem firstOccur_acc_subset (l : List String) :
    ∀ (acc : List String) (a : String), a ∈ acc →
      a ∈ l.foldl (fun acc x => if x ∈ acc then acc else acc ++ [x]) acc := by
  induction l with
  | nil => intro acc a ha; exact ha
  | cons x rest ih =>
    intro acc a ha
    rw [List.foldl_cons]
    refine ih _ a ?_
    by_cases hx : x ∈ acc
    · rw [if_pos hx]; exact ha
    · rw [if_neg hx]; exact List.mem_append_left _ ha

/-- Elements of the remaining list end up in the first-occurrence fold. -/
theorem mem_foldl_firstOccur :
    ∀ (l : List String) (acc : List String) (a : String), a ∈ l →
      a ∈ l.foldl (fun acc x => if x ∈ acc then acc else acc ++ [x]) acc := by
  intro l
  induction l with
  | nil => intro acc a ha; cases ha
  | cons x rest ih =>
    intro acc a ha
    rw [List.foldl_cons]
    rcases List.mem_cons.mp ha with ha | ha
    · subst ha
      refine firstOccur_acc_subset rest _ a ?_
      by_cases hx : a ∈ acc
      · rw [if_pos hx]; exact hx
      · rw [if_neg hx]
        exact List.mem_append_right _ (List.mem_singleton.mpr rfl)
    · exact ih _ a ha

/-- Every element of a list appears among its first occurrences. -/
theorem mem_firstOccurIds (l : List String) (a : String) (ha : a ∈ l) :
    a ∈ firstOccurIds l :=
  mem_foldl_firstOccur l [] a ha

/-- A list whose key occurs exactly once holds at most one element of that
key. -/
theorem countP_one_unique (f : ScopeEntry → String × SliderExtremity)
    (k : String × SliderExtremity) :
    ∀ l : List ScopeEntry,
      l.countP (fun x => decide (f x = k)) = 1 →
      ∀ x ∈ l, ∀ y ∈ l, f x = k → f y = k → x = y := by
  intro l
  induction l with
  | nil => intro h x hx; cases hx
  | cons a rest ih =>
    intro h x hx y hy hfx hfy
    rw [List.countP_cons] at h
    cases hak : decide (f a = k) with
    | true =>
      rw [hak, if_pos rfl] at h
      have hrest : rest.countP (fun x => decide (f x = k)) = 0 := by omega
      have hnone := List.countP_eq_zero.mp hrest
      have hxa : x = a := by
        rcases List.mem_cons.mp hx with h1 | h1
        · exact h1
        · exact absurd (decide_eq_true hfx) (hnone x h1)
      have hya : y = a := by
        rcases List.mem_cons.mp hy with h1 | h1
        · exact h1
        · exact absurd (decide_eq_true hfy) (hnone y h1)
      rw [hxa, hya]
    | false =>
      rw [hak, if_neg Bool.false_ne_true, Nat.add_zero] at h
      have hfa := of_decide_eq_false hak
      have hxr : x ∈ rest := by
        rcases List.mem_cons.mp hx with h1 | h1
        · exact absurd (h1 ▸ hfx) hfa
        · exact h1
      have hyr : y ∈ rest := by
        rcases List.mem_cons.mp hy with h1 | h1
        · exact absurd (h1 ▸ hfy) hfa
        · exact h1
      exact ih h x hxr y hyr hfx hfy

/-- Both endpoint positions of a listed pair are consumed. -/
theorem consumedOf_mem_of :
    ∀ (pairs : List (ScopeEntry × ScopeEntry)) (pr : ScopeEntry × ScopeEntry),
      pr ∈ pairs → pr.1.1 ∈ consumedOf pairs ∧ pr.2.1 ∈ consumedOf pairs := by
  intro pairs
  induction pairs with
  | nil => intro pr h; cases h
  | cons du rest ih =>
    intro pr h
    rw [show consumedOf (du :: rest) = du.1.1 :: du.2.1 :: consumedOf rest from rfl]
    rcases List.mem_cons.mp h with h | h
    · subst h
      exact ⟨List.mem_cons_self _ _, List.mem_cons_of_mem _ (List.mem_cons_self _ _)⟩
    · obtain ⟨h1, h2⟩ := ih pr h
      exact ⟨List.mem_cons_of_mem _ (List.mem_cons_of_mem _ h1),
        List.mem_cons_of_mem _ (List.mem_cons_of_mem _ h2)⟩

/-- In a scope whose keys pair off completely, every entry's position is
consumed by the matched pairs. -/
theorem scope_all_consumed (S : List ScopeEntry)
    (hpaired : keysPaired (S.map entryKey) = true) :
    ∀ e ∈ S, e.1 ∈ consumedOf (pairsForScope S) := by
  intro e he
  have hk : entryKey e ∈ S.map entryKey := List.mem_map.mpr ⟨e, he, rfl⟩
  have hall := List.all_eq_true.mp hpaired _ hk
  rw [decide_eq_true_eq] at hall
  obtain ⟨hcount, hopp⟩ := hall
  rw [List.countP_map] at hcount
  have hcount' : S.countP (fun x => decide (entryKey x = entryKey e)) = 1 := hcount
  obtain ⟨e2, he2, hke2⟩ := List.mem_map.mp hopp
  have h1 : e2.2.sliderRangeId = e.2.sliderRangeId := congrArg Prod.fst hke2
  have h2 : e2.2.sliderExtremity = oppExt e.2.sliderExtremity := congrArg Prod.snd hke2
  have hrid : e.2.sliderRangeId ∈
      firstOccurIds (S.map (fun x => x.2.sliderRangeId)) :=
    mem_firstOccurIds _ _ (List.mem_map.mpr ⟨e, he, rfl⟩)
  cases hext : e.2.sliderExtremity with
  | down =>
    obtain ⟨d, hd⟩ : ∃ d, scopeFind S .down e.2.sliderRangeId = some d := by
      rw [← Option.isSome_iff_exists, scopeFind, List.find?_isSome]
      exact ⟨e, he, by rw [decide_eq_true_eq]; exact ⟨rfl, hext⟩⟩
    obtain ⟨u, hu⟩ : ∃ u, scopeFind S .up e.2.sliderRangeId = some u := by
      rw [← Option.isSome_iff_exists, scopeFind, List.find?_isSome]
      refine ⟨e2, he2, ?_⟩
      rw [decide_eq_true_eq]
      rw [hext] at h2
      exact ⟨h1, h2⟩
    have hpair : (d, u) ∈ pairsForScope S := by
      rw [pairsForScope, List.mem_filterMap]
      refine ⟨e.2.sliderRangeId, hrid, ?_⟩
      rw [hd, hu]
    have hdprop := List.find?_some hd
    rw [decide_eq_true_eq] at hdprop
    have hed : e = d := by
      refine countP_one_unique entryKey (entryKey e) S hcount' e he d
        (List.mem_of_find?_eq_some hd) rfl ?_
      rw [entryKey, hdprop.1, hdprop.2, entryKey, hext]
    rw [hed]
    exact (consumedOf_mem_of _ (d, u) hpair).1
  | up =>
    obtain ⟨d, hd⟩ : ∃ d, scopeFind S .down e.2.sliderRangeId = some d := by
      rw [← Option.isSome_iff_exists, scopeFind, List.find?_isSome]
      refine ⟨e2, he2, ?_⟩
      rw [decide_eq_true_eq]
      rw [hext] at h2
      exact ⟨h1, h2⟩
    obtain ⟨u, hu⟩ : ∃ u, scopeFind S .up e.2.sliderRangeId = some u := by
      rw [← Option.isSome_iff_exists, scopeFind, List.find?_isSome]
      exact ⟨e, he, by rw [decide_eq_true_eq]; exact ⟨rfl, hext⟩⟩
    have hpair : (d, u) ∈ pairsForScope S := by
      rw [pairsForScope, List.mem_filterMap]
      refine ⟨e.2.sliderRangeId, hrid, ?_⟩
      rw [hd, hu]
    have huprop := List.find?_some hu
    rw [decide_eq_true_eq] at huprop
    have heu : e = u := by
      refine countP_one_unique entryKey (entryKey e) S hcount' e he u
        (List.mem_of_find?_eq_some hu) rfl ?_
      rw [entryKey, huprop.1, huprop.2, entryKey, hext]
    rw [heu]
    exact (consumedOf_mem_of _ (d, u) hpair).2

/-- Inserted merged fields hold no temporary slider. -/
theorem tempCount_map_merged (ms : List (ScopePos × RangeSlider)) :
    tempCountList (ms.map (fun m => FormFieldNode.field (FormField.rangeSlider m.2))) = 0 := by
  induction ms with
  | nil => rfl
  | cons m rest ih => rw [List.map_cons, tempCountList, ih]; rfl

/-- Removing children from a slider-free list keeps it slider-free. -/
theorem tempCount_removeConsumedSub_zero (i : Nat) (consumed : List ScopePos) :
    ∀ (gcs : List FormFieldNode) (j0 : Nat), tempCountList gcs = 0 →
      tempCountList (removeConsumedSub i consumed j0 gcs) = 0 := by
  intro gcs
  induction gcs with
  | nil => intro j0 h; exact h
  | cons d rest ih =>
    intro j0 h
    rw [tempCountList] at h
    rw [removeConsumedSub]
    cases hmem : decide (((i, some j0) : ScopePos) ∈ consumed) with
    | true =>
      rw [if_pos (of_decide_eq_true hmem), List.nil_append]
      exact ih (j0 + 1) (by omega)
    | false =>
      rw [if_neg (of_decide_eq_false hmem), List.singleton_append, tempCountList,
        ih (j0 + 1) (by omega)]
      omega

/-- The children rewrite leaves no temporary slider when every scope entry is
consumed and every subgroup is already slider-free. -/
theorem tempCount_rebuildAux_zero (consumed : List ScopePos)
    (merged : List (ScopePos × RangeSlider)) :
    ∀ (cs : List FormFieldNode) (i : Nat),
      (∀ e ∈ scopeSlidersAux i cs, e.1 ∈ consumed) →
      (∀ seg gcs, FormFieldNode.group seg gcs ∈ cs → tempCountList gcs = 0) →
      tempCountList (rebuildAux consumed merged i cs) = 0 := by
  intro cs
  induction cs with
  | nil => intro i hall hgr; rfl
  | cons c rest ih =>
    intro i hall hgr
    have htail := ih (i + 1)
      (fun e he => hall e (by rw [scopeSlidersAux, List.mem_append]; exact Or.inr he))
      (fun seg gcs hmem => hgr seg gcs (List.mem_cons_of_mem c hmem))
    have happ : ∀ xs ys : List FormFieldNode,
        tempCountList (xs ++ ys) = tempCountList xs + tempCountList ys := by
      intro xs ys
      induction xs with
      | nil => rw [List.nil_append, tempCountList, Nat.zero_add]
      | cons a arest aih => rw [List.cons_append, tempCountList, tempCountList, aih]; omega
    rw [rebuildAux, happ, htail, Nat.add_zero]
    cases c with
    | field f =>
      cases f with
      | temporaryRangeSlider p =>
        have hin : ((((i, none) : ScopePos), p) : ScopeEntry) ∈
            scopeSlidersAux i (FormFieldNode.field (FormField.temporaryRangeSlider p) :: rest) := by
          rw [scopeSlidersAux, List.mem_append]
          exact Or.inl (List.mem_singleton.mpr rfl)
        rw [rebuildChild, if_pos (hall _ hin)]
        exact tempCount_map_merged _
      | rangeSlider r => rfl
      | other ft ti => rfl
    | group seg gcs =>
      have hz := hgr seg gcs (List.mem_cons_self _ _)
      rw [rebuildChild, happ, tempCount_map_merged, Nat.zero_add]
      cases hpr : (!gcs.isEmpty && (removeConsumedSub i consumed 0 gcs).isEmpty) with
      | true => rw [if_pos (show (true = true) from rfl)]; rfl
      | false =>
        rw [if_neg Bool.false_ne_true, tempCountList, tempCountList, tempCountNode,
          tempCount_removeConsumedSub_zero i consumed gcs 0 hz]

/-- The pairing key of a children list splits on the head. -/
theorem directSliderKeys_cons (c : FormFieldNode) (l : List FormFieldNode) :
    directSliderKeys (c :: l) = (sliderKeyOf c).toList ++ directSliderKeys l := by
  rw [directSliderKeys, directSliderKeys, List.filterMap_cons]
  cases hk : sliderKeyOf c with
  | none => rfl
  | some k => rfl

mutual

/-- When every temporary slider of the tree is paired with exactly one
opposite-extremity sibling of its range id, the merged tree holds no
temporary slider. -/
theorem resolvesFully_merge_no_temp :
    ∀ (n n' : FormFieldNode), resolvesFully n = true → mergeRangeSliders n = .ok n' →
      tempCountNode n' = 0
  | FormFieldNode.field fl, n', hres, h => by
    cases fl with
    | temporaryRangeSlider p => cases hres
    | rangeSlider r =>
      rw [show mergeRangeSliders (FormFieldNode.field (FormField.rangeSlider r)) =
        .ok (FormFieldNode.field (FormField.rangeSlider r)) from rfl] at h
      cases h
      rfl
    | other ft ti =>
      rw [show mergeRangeSliders (FormFieldNode.field (FormField.other ft ti)) =
        .ok (FormFieldNode.field (FormField.other ft ti)) from rfl] at h
      cases h
      rfl
  | FormFieldNode.group seg cs, n', hres, h => by
    rw [resolvesFully, Bool.and_eq_true] at hres
    obtain ⟨hkp, hrc⟩ := hres
    rw [mergeRangeSliders] at h
    cases hl : mergeRangeSlidersList cs with
    | error e => rw [hl] at h; cases h
    | ok cs1 =>
      rw [hl] at h
      have h2 : (match mergeLevel cs1 with
          | Except.error e => Except.error e
          | Except.ok cs2 => Except.ok (FormFieldNode.group seg cs2)) = Except.ok n' := h
      cases hml : mergeLevel cs1 with
      | error e => rw [hml] at h2; cases h2
      | ok cs2 =>
        rw [hml] at h2
        cases h2
        obtain ⟨hkeys, hgr⟩ := resolvesChildren_merge cs cs1 hrc hl
        have hgrfree : ∀ seg2 gcs, FormFieldNode.group seg2 gcs ∈ cs1 →
            ∀ d ∈ gcs, isTempFieldNode d = false := by
          intro seg2 gcs hmem d hd
          have hz := tempCountList_zero_of gcs (hgr seg2 gcs hmem) d hd
          cases d with
          | field f =>
            cases f with
            | temporaryRangeSlider p => cases hz
            | rangeSlider r => rfl
            | other ft ti => rfl
          | group seg3 gcs3 => rfl
        have hscope : scopeSlidersAux 0 cs1 = directScopeAux 0 cs1 :=
          scopeSlidersAux_eq_direct cs1 0 hgrfree
        have hpaired : keysPaired ((scopeSliders cs1).map entryKey) = true := by
          rw [scopeSliders, hscope, directScopeAux_keys, hkeys]
          exact hkp
        have hall : ∀ e ∈ scopeSlidersAux 0 cs1,
            e.1 ∈ consumedOf (pairsForScope (scopeSliders cs1)) :=
          scope_all_consumed (scopeSliders cs1) hpaired
        rw [mergeLevel] at hml
        cases hba : buildAllPairs (pairsForScope (scopeSliders cs1)) with
        | error e => rw [hba] at hml; cases hml
        | ok merged =>
          rw [hba] at hml
          cases hml
          exact tempCount_rebuildAux_zero _ merged cs1 0 hall hgr

/-- List version of `resolvesFully_merge_no_temp`: merging resolvable
children preserves the direct slider keys and leaves every subgroup
slider-free. -/
theorem resolvesChildren_merge :
    ∀ (cs cs1 : List FormFieldNode), resolvesChildren cs = true →
      mergeRangeSlidersList cs = .ok cs1 →
      directSliderKeys cs1 = directSliderKeys cs ∧
      (∀ seg gcs1, FormFieldNode.group seg gcs1 ∈ cs1 → tempCountList gcs1 = 0)
  | [], cs1, _, h => by
    cases h
    exact ⟨rfl, fun seg gcs1 hmem => absurd hmem (List.not_mem_nil _)⟩
  | c :: rest, cs1, hrc, h => by
    rw [mergeRangeSlidersList] at h
    cases hc : mergeRangeSliders c with
    | error e => rw [hc] at h; cases h
    | ok c1 =>
      rw [hc] at h
      have h2 : (match mergeRangeSlidersList rest with
          | Except.error e => Except.error e
          | Except.ok rest1 => Except.ok (c1 :: rest1)) = Except.ok cs1 := h
      cases hrest : mergeRangeSlidersList rest with
      | error e => rw [hrest] at h2; cases h2
      | ok rest1 =>
        rw [hrest] at h2
        cases h2
        cases c with
        | field fl =>
          have hrc' : resolvesChildren rest = true := hrc
          obtain ⟨ih1, ih2⟩ := resolvesChildren_merge rest rest1 hrc' hrest
          have hc1 : c1 = FormFieldNode.field fl := by
            rw [show mergeRangeSliders (FormFieldNode.field fl) =
              .ok (FormFieldNode.field fl) from rfl] at hc
            cases hc
            rfl
          subst hc1
          constructor
          · rw [directSliderKeys_cons, directSliderKeys_cons, ih1]
          · intro seg gcs1 hmem
            rcases List.mem_cons.mp hmem with hmem | hmem
            · cases hmem
            · exact ih2 seg gcs1 hmem
        | group sg gcs =>
          rw [resolvesChildren, Bool.and_eq_true] at hrc
          obtain ⟨hresg, hrcrest⟩ := hrc
          obtain ⟨ih1, ih2⟩ := resolvesChildren_merge rest rest1 hrcrest hrest
          have hzero := resolvesFully_merge_no_temp (FormFieldNode.group sg gcs) c1 hresg hc
          have hkey1 : sliderKeyOf c1 = none := by
            cases c1 with
            | field f =>
              cases f with
              | temporaryRangeSlider p => cases hzero
              | rangeSlider r => rfl
              | other ft ti => rfl
            | group seg2 gcs2 => rfl
          constructor
          · rw [directSliderKeys_cons, directSliderKeys_cons, ih1, hkey1]
            rfl
          · intro seg2 gcs1 hmem
            rcases List.mem_cons.mp hmem with hmem | hmem
            · rw [← hmem] at hzero
              exact hzero
            · exact ih2 seg2 gcs1 hmem

end

/-- C9: when every temporary slider of the input is paired with exactly one
opposite-extremity sibling sharing its range id, the merged tree holds zero
temporary-range-slider leaves, and merging it again is the identity (merge
twice equals merge once). -/
theorem mergeRangeSliders_resolvable_idempotent (t t' : FormFieldNode)
    (hres : resolvesFully t = true) (hok : mergeRangeSliders t = .ok t') :
    tempCountNode t' = 0 ∧ mergeRangeSliders t' = .ok t' :=
  have h0 := resolvesFully_merge_no_temp t t' hres hok
  ⟨h0, mergeRangeSliders_id_of_no_temp t' h0⟩

/-- Witness for the resolvable-idempotence theorem: a flat group holding the
cpu pair as siblings. -/
theorem mergeRangeSliders_resolvable_idempotent_witness :
    tempCountNode (FormFieldNode.group "flat"
      [FormFieldNode.field (FormField.rangeSlider cpuMergedBase)]) = 0 ∧
    mergeRangeSliders (FormFieldNode.group "flat"
      [FormFieldNode.field (FormField.rangeSlider cpuMergedBase)]) =
      .ok (FormFieldNode.group "flat"
        [FormFieldNode.field (FormField.rangeSlider cpuMergedBase)]) :=
  mergeRangeSliders_resolvable_idempotent
    (FormFieldNode.group "flat"
      [createTemporaryRangeSlider cpuDownPayload,
       createTemporaryRangeSlider cpuUpBasePayload])
    (FormFieldNode.group "flat"
      [FormFieldNode.field (FormField.rangeSlider cpuMergedBase)])
    rfl rfl
